import Mathlib

/-!
# First-person controller of the voxel game

A shallow embedding of `src/voxelGame/FirstPersonController.cpp` (the later of the two
controller sources; `src/Ex6/FirstPersonController.cpp` is its predecessor and differs in the
places recorded next to the definitions below).

Conventions of the embedding.

* `float` values are rationals and float arithmetic is exact, with one exception: the sum of
  `minedAmount += deltaTime`, which is compared with the threshold 1, is rounded, by the field
  `roundFloat` of `MathFns` (`roundFloat32` is the rounding to the nearest `float`). Infinities
  and NaN are outside the model.
  The literals `0.501f`, `0.2f`, `0.1f`, `0.5f` are the rationals `501/1000`, `1/5`, `1/10`, `1/2`.
* `int` values are unbounded integers; the cast `(int)` truncates toward zero.
* The constants of `FirstPersonController.hpp` and the enumerators of `Block.hpp` are not part
  of the sources at hand; they are the fields of `Constants` and every definition takes them as
  a parameter.
* `cos`, `sin`, `radians`, the square root and the inverse square root are library functions with
  irrational values; they are the fields of `MathFns` and every definition takes them as a
  parameter. The one comparison of a square root with a bound, the distance test of
  `checkGrounded`, is decided exactly, on the squares (`distanceExceeds`).
* `Block*` is `Option BlockPtr`: `none` is `nullptr`, `some p` a block identified by `p`.
* The singleton reached through `Game::getInstance()` is the field `game` of the controller
  state. The physics world answers ray casts through the function `Game.raycast`, the voxel world
  resolves coordinates through `Game.locationToBlock`, and `Game.blocks` is the block storage.
* Calls whose effect lies outside the sources at hand (`flagNeighboursForRecalculateIfNecessary`,
  `locationToBlock`, `setLinearVelocity`, `glm::normalize`) and the entry into `destroyBlock` are
  appended to the list `calls`, most recent last, so that they can be counted.
* Console output and the `draw` method have no effect on the state and are left out.
-/

namespace VoxelGame

/-! ## Vectors -/

/-- A `glm::vec3` or `btVector3`. -/
structure Vec3 where
  x : ℚ
  y : ℚ
  z : ℚ
deriving DecidableEq

/-- A `glm::vec2`; for the look rotation `x` is the yaw and `y` the pitch, in degrees. -/
structure Vec2 where
  x : ℚ
  y : ℚ
deriving DecidableEq

namespace Vec3

/-- Component-wise sum, `operator+`. -/
def add (a b : Vec3) : Vec3 := ⟨a.x + b.x, a.y + b.y, a.z + b.z⟩

/-- Component-wise difference, `operator-`. -/
def sub (a b : Vec3) : Vec3 := ⟨a.x - b.x, a.y - b.y, a.z - b.z⟩

/-- Product with a scalar, `operator*`. -/
def scale (a : Vec3) (k : ℚ) : Vec3 := ⟨a.x * k, a.y * k, a.z * k⟩

/-- Scalar product. -/
def dot (a b : Vec3) : ℚ := a.x * b.x + a.y * b.y + a.z * b.z

end Vec3

/-- The cast `(int)` of a float: truncation toward zero. -/
def toInt (q : ℚ) : ℤ := if 0 ≤ q then ⌊q⌋ else ⌈q⌉

/-- The function `glm::clamp(x, minVal, maxVal)`, which is `min(max(x, minVal), maxVal)`. -/
def clamp (x minVal maxVal : ℚ) : ℚ := min (max x minVal) maxVal

/-! ## Parameters: library functions and header constants -/

/-- The transcendental library functions used by the controller, and the rounding of the one
float addition whose result decides a branch, `minedAmount += deltaTime`: the sum held by the
float is `roundFloat` of the exact sum. Of the rounding only this is required: the rounded value
of a number that is not negative is not negative. -/
structure MathFns where
  cos : ℚ → ℚ
  sin : ℚ → ℚ
  radians : ℚ → ℚ
  sqrt : ℚ → ℚ
  inversesqrt : ℚ → ℚ
  roundFloat : ℚ → ℚ
  roundFloat_nonneg : ∀ q, 0 ≤ q → 0 ≤ roundFloat q

/-- Rounding to the nearest `float` (24 binary digits, ties to even); the exponent range is not
limited, so there is no overflow and there are no subnormal numbers. -/
def roundFloat32 (q : ℚ) : ℚ :=
  if q = 0 then 0
  else
    let e : ℤ := Int.log 2 |q|
    let ulp : ℚ := 2 ^ (e - 23)
    let m : ℚ := |q| / ulp
    let f : ℤ := ⌊m⌋
    let n : ℤ :=
      if m - f < 1 / 2 then f
      else if 1 / 2 < m - f then f + 1
      else if f % 2 = 0 then f else f + 1
    (if q < 0 then -1 else 1) * n * ulp

/-- An enumerator of `BlockType`, by its integer value. -/
abbrev BlockType := ℤ

/-- The constants of `FirstPersonController.hpp` and the two enumerators of `BlockType` that the
controller names. -/
structure Constants where
  FIELD_OF_VIEW : ℚ
  NEAR_PLANE : ℚ
  FAR_PLANE : ℚ
  SPRINT_FOV_INCREASE : ℚ
  COLLIDER_RADIUS : ℚ
  COLLIDER_HEIGHT : ℚ
  Y_CAMERA_OFFSET : ℚ
  NEEDS_GROUNDED_TO_MOVE : Bool
  SPRINT_MOVEMENT_INCREASE : ℚ
  JUMP_MOVEMENT_MULTIPLIER : ℚ
  MOVEMENT_SPEED : ℚ
  ROTATION_SPEED : ℚ
  MAX_X_LOOK_UP_ROTATION : ℚ
  MAX_X_LOOK_DOWN_ROTATION : ℚ
  MINE_RANGE : ℚ
  Stone : BlockType
  LENGTH : BlockType

/-- The function `glm::normalize(v)`, which is `v * inversesqrt(dot(v, v))`. -/
def normalize (M : MathFns) (v : Vec3) : Vec3 := v.scale (M.inversesqrt (v.dot v))

/-- The method `btVector3::length`. -/
def btLength (M : MathFns) (v : Vec3) : ℚ := M.sqrt (v.dot v)

/-- The method `btVector3::normalized`, which divides by the length. -/
def btNormalized (M : MathFns) (v : Vec3) : Vec3 := v.scale (1 / btLength M v)

/-- The test `a.distance(b) > bound`, where `btVector3::distance` is the length of the
difference, taken with the exact square root: the root of the squared length exceeds the bound
exactly when the bound is negative or its square is below the squared length. -/
def distanceExceeds (a b : Vec3) (bound : ℚ) : Bool :=
  decide (bound < 0 ∨ bound * bound < (b.sub a).dot (b.sub a))

/-! ## Collaborators -/

/-- Identity of a block: what a `Block*` points to. -/
abbrev BlockPtr := ℕ

/-- The part of `Block` that the controller reads and writes. -/
structure Block where
  type : BlockType
  active : Bool
  position : Vec3
deriving DecidableEq

/-- What a `ClosestRayResultCallback` holds after a hit. -/
structure RayResult where
  m_hitPointWorld : Vec3
  m_hitNormalWorld : Vec3
deriving DecidableEq

/-- The recorded calls. -/
inductive Call where
  | normalize (v : Vec3)
  | setLinearVelocity (v : Vec3)
  | locationToBlock (x y z : ℤ) (create : Bool)
  | destroyBlock (block : BlockPtr)
  | flagNeighboursForRecalculateIfNecessary (x y z : ℚ)
deriving DecidableEq

/-- The singleton `Game`: physics world, voxel world and block storage. -/
structure Game where
  raycast : Vec3 → Vec3 → Option RayResult
  locationToBlock : ℤ → ℤ → ℤ → Bool → Option BlockPtr
  blocks : BlockPtr → Block

/-- The part of `btRigidBody` that the controller reads and writes. The origin of the world
transform and the origin reported by the motion state are separate fields. -/
structure RigidBody where
  linearVelocity : Vec3
  gravity : Vec3
  collisionFlags : ℤ
  worldOrigin : Vec3
  motionStateOrigin : Vec3
deriving DecidableEq

/-- The flag `btCollisionObject::CF_NO_CONTACT_RESPONSE`. -/
def CF_NO_CONTACT_RESPONSE : ℤ := 4

/-- The matrix built in `update` by `translate`, `rotate` about `(0,-1,0)` and `rotate` about
`(-1,0,0)`, kept as the arguments of the three calls. -/
structure Transform where
  translation : Vec3
  yaw : ℚ
  pitch : ℚ
deriving DecidableEq

/-- The part of `sre::Camera` that the controller writes: the arguments of the last
`setPerspectiveProjection` and the matrix whose inverse was given to `setViewTransform`. -/
structure Camera where
  fieldOfView : ℚ
  nearPlane : ℚ
  farPlane : ℚ
  viewOf : Transform
deriving DecidableEq

/-! ## Events -/

/-- The event types the controller tests for. -/
inductive EventType where
  | SDL_KEYDOWN | SDL_KEYUP | SDL_MOUSEMOTION | SDL_MOUSEBUTTONDOWN | SDL_MOUSEBUTTONUP | other
deriving DecidableEq

/-- The key codes the controller tests for. -/
inductive Keycode where
  | SDLK_HOME | SDLK_r | SDLK_t | SDLK_y | SDLK_u | SDLK_SPACE | SDLK_e | SDLK_q
  | SDLK_w | SDLK_a | SDLK_s | SDLK_d | SDLK_LSHIFT | SDLK_LCTRL | other
deriving DecidableEq

/-- The mouse buttons the controller tests for. -/
inductive MouseButton where
  | SDL_BUTTON_LEFT | SDL_BUTTON_RIGHT | other
deriving DecidableEq

/-- The fields of `SDL_Event` that the controller reads: `type`, `key.keysym.sym`,
`motion.xrel`, `motion.yrel` and `button.button`. -/
structure SDL_Event where
  type : EventType
  sym : Keycode
  xrel : ℤ
  yrel : ℤ
  button : MouseButton
deriving DecidableEq

/-! ## The controller -/

/-- The members of `FirstPersonController`, the objects it points to, the singleton it reaches
and the list of recorded calls. -/
structure FirstPersonController where
  lookRotation : Vec2
  fwd : Bool
  left : Bool
  bwd : Bool
  right : Bool
  up : Bool
  down : Bool
  isSprinting : Bool
  isGrounded : Bool
  flyMode : Bool
  ghostMode : Bool
  replaceBlock : Bool
  instantMining : Bool
  lockRotation : Bool
  isMining : Bool
  minedAmount : ℚ
  lastBlock : Option BlockPtr
  blockSelected : BlockType
  transformMatrix : Transform
  toRay : Vec3
  fromRay : Vec3
  toRayNormal : Vec3
  fromRayNormal : Vec3
  rigidBody : RigidBody
  camera : Camera
  game : Game
  calls : List Call

namespace FirstPersonController

/-- Appends one call to the record. -/
def record (c : Call) (s : FirstPersonController) : FirstPersonController :=
  { s with calls := s.calls ++ [c] }

/-- The method `btRigidBody::setLinearVelocity`. -/
def setLinearVelocity (v : Vec3) (s : FirstPersonController) : FirstPersonController :=
  record (.setLinearVelocity v) { s with rigidBody := { s.rigidBody with linearVelocity := v } }

/-- The call `Game::getInstance()->locationToBlock(x, y, z, create)`. -/
def locationToBlock (x y z : ℤ) (create : Bool) (s : FirstPersonController) :
    Option BlockPtr × FirstPersonController :=
  (s.game.locationToBlock x y z create, record (.locationToBlock x y z create) s)

/-- The call `Game::getInstance()->flagNeighboursForRecalculateIfNecessary(x, y, z)`. -/
def flagNeighboursForRecalculateIfNecessary (x y z : ℚ) (s : FirstPersonController) :
    FirstPersonController :=
  record (.flagNeighboursForRecalculateIfNecessary x y z) s

/-- Writes one block of the storage: `setType` and `setActive` go through here. -/
def setBlock (p : BlockPtr) (b : Block) (s : FirstPersonController) : FirstPersonController :=
  { s with game := { s.game with blocks := fun q => if q = p then b else s.game.blocks q } }

/-- Lines 395-396 of `castRayForBlock`: the ray starts at the eye. -/
def rayStart (K : Constants) (s : FirstPersonController) : Vec3 :=
  let start := s.rigidBody.worldOrigin
  { start with y := start.y + K.Y_CAMERA_OFFSET }

/-- Lines 398-402 of `castRayForBlock`: the far end of the ray. In `src/Ex6` (lines 375-378) the
direction is computed differently and the range is the literal `10.0f`. -/
def rayEnd (M : MathFns) (K : Constants) (s : FirstPersonController) : Vec3 :=
  let cosY := M.cos (M.radians s.lookRotation.y)
  let direction : Vec3 :=
    ⟨cosY * M.sin (M.radians s.lookRotation.x), -1 * M.sin (M.radians s.lookRotation.y),
      cosY * M.cos (M.radians s.lookRotation.x) * -1⟩
  let direction := btNormalized M direction
  (rayStart K s).add (direction.scale K.MINE_RANGE)

/-- Lines 412 and 420-430 of `castRayForBlock`: from the hit to the three integers given to
`locationToBlock`. -/
def hitToCell (res : RayResult) (normalMultiplier : ℚ) : ℤ × ℤ × ℤ :=
  let hit := res.m_hitPointWorld
  let hit := hit.add ⟨501 / 1000, 501 / 1000, 501 / 1000⟩
  let hit : Vec3 := if hit.y < 0 then { hit with y := 0 } else hit
  let hit := hit.add (res.m_hitNormalWorld.scale normalMultiplier)
  (toInt hit.x, toInt hit.y, toInt hit.z)

/-- Lines 394-434, `castRayForBlock`. From the hit on, `src/Ex6` (lines 386-410) agrees with it
up to the names of the four members that store the ray. -/
def castRayForBlock (M : MathFns) (K : Constants) (normalMultiplier : ℚ)
    (s : FirstPersonController) : Option BlockPtr × FirstPersonController :=
  let start := rayStart K s
  match s.game.raycast start (rayEnd M K s) with
  | some res =>
    let hit := res.m_hitPointWorld
    let s := { s with
      toRay := hit
      toRayNormal := hit.add (res.m_hitNormalWorld.scale (1 / 5))
      fromRayNormal := hit
      fromRay := start }
    let cell := hitToCell res normalMultiplier
    locationToBlock cell.1 cell.2.1 cell.2.2 true s
  | none => (none, s)

/-- Lines 358-370, `destroyBlock`. In `src/Ex6` (lines 323-331) the chunk holding the block is
flagged instead, before the block is deactivated. -/
def destroyBlock (block : BlockPtr) (s : FirstPersonController) : FirstPersonController :=
  let s := record (.destroyBlock block) s
  let target := s.game.blocks block
  let position := target.position
  let s := setBlock block { target with active := false } s
  let s := { s with minedAmount := 0 }
  flagNeighboursForRecalculateIfNecessary position.x position.y position.z s

/-- Lines 373-391, `placeBlock`. -/
def placeBlock (M : MathFns) (K : Constants) (s : FirstPersonController) :
    FirstPersonController :=
  let r := castRayForBlock M K (if s.replaceBlock then -(1 / 5) else 1 / 5) s
  let s := r.2
  match r.1 with
  | some detectedBlock =>
    if !s.replaceBlock && (s.game.blocks detectedBlock).active then s
    else
      let position := (s.game.blocks detectedBlock).position
      let s := flagNeighboursForRecalculateIfNecessary
        (toInt position.x) (toInt position.y) (toInt position.z) s
      let s := setBlock detectedBlock { s.game.blocks detectedBlock with type := s.blockSelected } s
      setBlock detectedBlock { s.game.blocks detectedBlock with active := true } s
  | none => s

/-- Lines 170-184, `checkGrounded`. -/
def checkGrounded (K : Constants) (position : Vec3)
    (s : FirstPersonController) : FirstPersonController :=
  let down := position.add ⟨0, -100000, 0⟩
  match s.game.raycast position down with
  | some res =>
    { s with isGrounded :=
        !(distanceExceeds position res.m_hitPointWorld
          (K.COLLIDER_RADIUS + 1 / 2 * K.COLLIDER_HEIGHT + 1 / 10)) }
  | none => { s with isGrounded := false }

/-- Lines 67-74 of `update`: the sum of the axis contributions of the four movement flags. -/
def keyMovement (s : FirstPersonController) : Vec3 :=
  let movement : Vec3 := ⟨0, 0, 0⟩
  let movement := if s.fwd then movement.add ⟨0, 0, -1⟩ else movement
  let movement := if s.left then movement.add ⟨-1, 0, 0⟩ else movement
  let movement := if s.bwd then movement.add ⟨0, 0, 1⟩ else movement
  let movement := if s.right then movement.add ⟨1, 0, 0⟩ else movement
  movement

/-- Lines 67-107 of `update`: the body of the movement branch. -/
def handleMovement (M : MathFns) (K : Constants) (deltaTime : ℚ)
    (s : FirstPersonController) : FirstPersonController :=
  let movement := keyMovement s
  let r : Vec3 × FirstPersonController :=
    if movement ≠ ⟨0, 0, 0⟩ then (normalize M movement, record (.normalize movement) s)
    else (movement, s)
  let movement := r.1
  let s := r.2
  let movement := if s.isSprinting then movement.scale K.SPRINT_MOVEMENT_INCREASE else movement
  let movement := if !s.isGrounded then movement.scale K.JUMP_MOVEMENT_MULTIPLIER else movement
  let movement :=
    if s.flyMode then
      let movement := if s.up then movement.add ⟨0, 1, 0⟩ else movement
      if s.down then movement.add ⟨0, -1, 0⟩ else movement
    else movement
  let movement := movement.scale deltaTime
  let x := M.cos (M.radians s.lookRotation.x) * movement.x
    - M.sin (M.radians s.lookRotation.x) * movement.z
  let z := M.cos (M.radians s.lookRotation.x) * movement.z
    + M.sin (M.radians s.lookRotation.x) * movement.x
  let velocity := s.rigidBody.linearVelocity
  let velocity : Vec3 :=
    if s.flyMode then ⟨x * K.MOVEMENT_SPEED, movement.y * K.MOVEMENT_SPEED, z * K.MOVEMENT_SPEED⟩
    else ⟨x * K.MOVEMENT_SPEED, velocity.y, z * K.MOVEMENT_SPEED⟩
  setLinearVelocity velocity s

/-- Lines 62-108 of `update`: movement is handled when grounded or when grounding is not
required. -/
def moveStep (M : MathFns) (K : Constants) (deltaTime : ℚ)
    (s : FirstPersonController) : FirstPersonController :=
  if s.isGrounded || !K.NEEDS_GROUNDED_TO_MOVE then handleMovement M K deltaTime s else s

/-- Lines 110-123 of `update`: ground check and camera transform. -/
def cameraStep (M : MathFns) (K : Constants) (s : FirstPersonController) :
    FirstPersonController :=
  let position := s.rigidBody.motionStateOrigin
  let s := checkGrounded K position s
  let t : Transform :=
    { translation := ⟨position.x, position.y + K.Y_CAMERA_OFFSET, position.z⟩
      yaw := M.radians s.lookRotation.x
      pitch := M.radians s.lookRotation.y }
  { s with transformMatrix := t, camera := { s.camera with viewOf := t } }

/-- Lines 125-140 of `update`: the mining step. In `src/Ex6` (lines 123-138) the test before
`destroyBlock` is `minedAmount >= 1` alone; the two agree when `instantMining` is off. The
argument of `destroyBlock` is `lastBlock`, which is not null in that branch. -/
def mineStep (M : MathFns) (K : Constants) (deltaTime : ℚ)
    (s : FirstPersonController) : FirstPersonController :=
  if s.isMining then
    let r := castRayForBlock M K (-(1 / 5)) s
    let detectedBlock := r.1
    let s := r.2
    let s :=
      if detectedBlock ≠ none ∧ detectedBlock = s.lastBlock then
        let s := { s with minedAmount := M.roundFloat (s.minedAmount + deltaTime) }
        if s.minedAmount ≥ 1 ∨ s.instantMining = true then
          match s.lastBlock with
          | some block => destroyBlock block s
          | none => s
        else s
      else { s with minedAmount := 0 }
    { s with lastBlock := detectedBlock }
  else s

/-- Lines 60-141, `update`. -/
def update (M : MathFns) (K : Constants) (deltaTime : ℚ)
    (s : FirstPersonController) : FirstPersonController :=
  mineStep M K deltaTime (cameraStep M K (moveStep M K deltaTime s))

/-- Lines 442-446, `translateController`. -/
def translateController (position : Vec3) (rotation : ℚ)
    (s : FirstPersonController) : FirstPersonController :=
  { s with
    lookRotation := ⟨rotation, 0⟩
    rigidBody := { s.rigidBody with worldOrigin := s.rigidBody.worldOrigin.add position } }

/-- The method `btRigidBody::setGravity`. -/
def setGravity (v : Vec3) (s : FirstPersonController) : FirstPersonController :=
  { s with rigidBody := { s.rigidBody with gravity := v } }

/-- The method `btRigidBody::setCollisionFlags`. -/
def setCollisionFlags (flags : ℤ) (s : FirstPersonController) : FirstPersonController :=
  { s with rigidBody := { s.rigidBody with collisionFlags := flags } }

/-- The method `sre::Camera::setPerspectiveProjection`. -/
def setPerspectiveProjection (fieldOfView nearPlane farPlane : ℚ)
    (s : FirstPersonController) : FirstPersonController :=
  { s with camera := { s.camera with
      fieldOfView := fieldOfView, nearPlane := nearPlane, farPlane := farPlane } }

/-- Lines 187-326, `onKey`: the successive `if` statements, in the order of the source. -/
def onKey (K : Constants) (event : SDL_Event) (s : FirstPersonController) :
    FirstPersonController :=
  -- Teleport the controller up if HOME is pressed
  let s :=
    if event.type = .SDL_KEYUP ∧ event.sym = .SDLK_HOME then translateController ⟨0, 8, 0⟩ 0 s
    else s
  -- Toggle replacement mode
  let s :=
    if event.type = .SDL_KEYUP ∧ event.sym = .SDLK_r then
      { s with replaceBlock := !s.replaceBlock }
    else s
  -- Toggle invisible mode
  let s :=
    if event.type = .SDL_KEYUP ∧ event.sym = .SDLK_t then
      let s := { s with ghostMode := !s.ghostMode }
      if s.ghostMode then setCollisionFlags CF_NO_CONTACT_RESPONSE s else setCollisionFlags 0 s
    else s
  -- Toggle flying
  let s :=
    if event.type = .SDL_KEYUP ∧ event.sym = .SDLK_y then
      let s := { s with flyMode := !s.flyMode }
      if s.flyMode then setGravity ⟨0, 0, 0⟩ s else setGravity ⟨0, -10, 0⟩ s
    else s
  -- Toggle instant mining
  let s :=
    if event.type = .SDL_KEYUP ∧ event.sym = .SDLK_u then
      { s with instantMining := !s.instantMining }
    else s
  -- Activate jump
  let s :=
    if event.type = .SDL_KEYDOWN ∧ event.sym = .SDLK_SPACE ∧ s.isGrounded = true then
      if !s.flyMode then setLinearVelocity ⟨0, 5, 0⟩ s else s
    else s
  -- Change selected block
  let s :=
    if event.type = .SDL_KEYUP then
      if event.sym = .SDLK_e then
        let s := { s with blockSelected := s.blockSelected + 1 }
        if s.blockSelected = K.LENGTH then { s with blockSelected := K.Stone } else s
      else if event.sym = .SDLK_q then
        let s := if s.blockSelected = K.Stone then { s with blockSelected := K.LENGTH } else s
        { s with blockSelected := s.blockSelected - 1 }
      else s
    else s
  -- Keys down
  let s :=
    if event.type = .SDL_KEYDOWN then
      match event.sym with
      | .SDLK_w => { s with fwd := true }
      | .SDLK_a => { s with left := true }
      | .SDLK_s => { s with bwd := true }
      | .SDLK_d => { s with right := true }
      | .SDLK_LSHIFT =>
        setPerspectiveProjection (K.FIELD_OF_VIEW * K.SPRINT_FOV_INCREASE) K.NEAR_PLANE
          K.FAR_PLANE { s with isSprinting := true }
      | .SDLK_SPACE => { s with up := true }
      | .SDLK_LCTRL => { s with down := true }
      | _ => s
    else s
  -- Keys released
  let s :=
    if event.type = .SDL_KEYUP then
      match event.sym with
      | .SDLK_w => { s with fwd := false }
      | .SDLK_a => { s with left := false }
      | .SDLK_s => { s with bwd := false }
      | .SDLK_d => { s with right := false }
      | .SDLK_LSHIFT =>
        { setPerspectiveProjection K.FIELD_OF_VIEW K.NEAR_PLANE K.FAR_PLANE s with
          isSprinting := false }
      | .SDLK_SPACE => { s with up := false }
      | .SDLK_LCTRL => { s with down := false }
      | _ => s
    else s
  s

/-- Lines 329-355, `onMouse`. -/
def onMouse (M : MathFns) (K : Constants) (event : SDL_Event) (s : FirstPersonController) :
    FirstPersonController :=
  -- Apply mouse movement to rotations
  let s :=
    if event.type = .SDL_MOUSEMOTION ∧ s.lockRotation = false then
      let s := { s with lookRotation :=
        { s.lookRotation with x := s.lookRotation.x + event.xrel * K.ROTATION_SPEED } }
      let s := { s with lookRotation :=
        { s.lookRotation with y := s.lookRotation.y + event.yrel * K.ROTATION_SPEED } }
      { s with lookRotation :=
        { s.lookRotation with
          y := clamp s.lookRotation.y (-K.MAX_X_LOOK_UP_ROTATION) K.MAX_X_LOOK_DOWN_ROTATION } }
    else s
  -- Handle mouse clicks
  let s :=
    if event.type = .SDL_MOUSEBUTTONDOWN then
      if event.button = .SDL_BUTTON_LEFT then { s with isMining := true }
      else if event.button = .SDL_BUTTON_RIGHT then placeBlock M K s
      else s
    else s
  let s :=
    if event.type = .SDL_MOUSEBUTTONUP then
      if event.button = .SDL_BUTTON_LEFT then { s with isMining := false, minedAmount := 0 }
      else s
    else s
  s

/-- Lines 437-439, `setLockRotation`. -/
def setLockRotation (lockRotation : Bool) (s : FirstPersonController) : FirstPersonController :=
  { s with lockRotation := lockRotation }

/-- Lines 449-454, `getPosition`. -/
def getPosition (s : FirstPersonController) : Vec3 := s.rigidBody.motionStateOrigin

/-- The accessor `getMinedAmount` (`src/Ex6`, lines 426-428). -/
def getMinedAmount (s : FirstPersonController) : ℚ := s.minedAmount

/-- The accessor `getIsGrounded` (`src/Ex6`, lines 422-424). -/
def getIsGrounded (s : FirstPersonController) : Bool := s.isGrounded

/-! ## Counting calls and running frames -/

/-- The calls recorded between an earlier state and a later one. -/
def callsSince (before after : FirstPersonController) : List Call :=
  after.calls.drop before.calls.length

/-- Whether a recorded call is an entry into `destroyBlock`. -/
def isDestroy : Call → Bool
  | .destroyBlock _ => true
  | _ => false

/-- Whether a recorded call is a call of `flagNeighboursForRecalculateIfNecessary`. -/
def isFlag : Call → Bool
  | .flagNeighboursForRecalculateIfNecessary _ _ _ => true
  | _ => false

/-- Whether a recorded call belongs to the movement branch of `update`: `glm::normalize` or
`setLinearVelocity`. -/
def isMove : Call → Bool
  | .normalize _ => true
  | .setLinearVelocity _ => true
  | _ => false

/-- What the simulation hands to one call of `update`: the elapsed time, the rigid body as the
physics step left it, and the answers of the physics world to ray casts during the frame. -/
structure Frame where
  deltaTime : ℚ
  body : RigidBody
  raycast : Vec3 → Vec3 → Option RayResult

/-- The state at the start of a frame, before `update` is called. -/
def enterFrame (f : Frame) (s : FirstPersonController) : FirstPersonController :=
  { s with rigidBody := f.body, game := { s.game with raycast := f.raycast } }

/-- Consecutive frames: one call of `update` per frame, no event in between. -/
def runFrames (M : MathFns) (K : Constants) : List Frame → FirstPersonController →
    FirstPersonController
  | [], s => s
  | f :: fs, s => runFrames M K fs (update M K f.deltaTime (enterFrame f s))

/-- In every one of the frames the mining ray cast of `update` returns the block `b`. -/
def targetsThroughout (M : MathFns) (K : Constants) (b : BlockPtr) :
    List Frame → FirstPersonController → Prop
  | [], _ => True
  | f :: fs, s =>
    (castRayForBlock M K (-(1 / 5)) (enterFrame f s)).1 = some b
      ∧ targetsThroughout M K b fs (update M K f.deltaTime (enterFrame f s))

/-- No float addition of the mining accumulation rounds, along a run of frames on one target
with instant mining off that starts from the mined amount `a`: each sum `minedAmount + deltaTime`
is held exactly, and the amount goes on from zero after a sum that has reached 1. -/
def addsExactly (M : MathFns) : ℚ → List Frame → Prop
  | _, [] => True
  | a, f :: fs =>
    M.roundFloat (a + f.deltaTime) = a + f.deltaTime
      ∧ addsExactly M (if 1 ≤ a + f.deltaTime then 0 else a + f.deltaTime) fs

/-- Lines 130-134 of `update` repeated over frame times, on one target with instant mining off,
from the mined amount `a`: the mined amount after the frames and the number of calls of
`destroyBlock`. -/
def accumulateMining (M : MathFns) : ℚ → List ℚ → ℚ × ℕ
  | a, [] => (a, 0)
  | a, d :: ds =>
    if 1 ≤ M.roundFloat (a + d) then
      ((accumulateMining M 0 ds).1, (accumulateMining M 0 ds).2 + 1)
    else accumulateMining M (M.roundFloat (a + d)) ds

/-- One call into the controller from the game loop: `update` for a frame, `onKey` or `onMouse`
for an event. -/
inductive Input where
  | update (f : Frame)
  | onKey (event : SDL_Event)
  | onMouse (event : SDL_Event)

/-- The controller after one call. -/
def step (M : MathFns) (K : Constants) : Input → FirstPersonController → FirstPersonController
  | .update f, s => update M K f.deltaTime (enterFrame f s)
  | .onKey event, s => onKey K event s
  | .onMouse event, s => onMouse M K event s

/-- The controller after a sequence of calls, first call first. -/
def run (M : MathFns) (K : Constants) : List Input → FirstPersonController →
    FirstPersonController
  | [], s => s
  | i :: rest, s => run M K rest (step M K i s)

end FirstPersonController

/-! ## Sample data -/

/-- Library functions that are exact at the angle zero and at the lengths zero and one, with
additions that do not round. -/
def sampleMath : MathFns :=
  { cos := fun _ => 1, sin := fun _ => 0, radians := fun d => d * 355 / (113 * 180),
    sqrt := fun q => q, inversesqrt := fun _ => 1,
    roundFloat := fun q => q, roundFloat_nonneg := fun _ h => h }

/-- The sample library functions with additions that round as `float` additions do. -/
def floatMath : MathFns :=
  { sampleMath with
    roundFloat := roundFloat32
    roundFloat_nonneg := by
      intro q h
      unfold roundFloat32
      by_cases h0 : q = 0
      · rw [if_pos h0]
      · rw [if_neg h0]
        dsimp only
        rw [if_neg (not_lt.mpr h), one_mul]
        have hu : (0 : ℚ) < (2 : ℚ) ^ (Int.log 2 |q| - 23) := zpow_pos (by norm_num) _
        have hf : (0 : ℤ) ≤ ⌊|q| / (2 : ℚ) ^ (Int.log 2 |q| - 23)⌋ :=
          Int.floor_nonneg.mpr (div_nonneg (abs_nonneg q) hu.le)
        apply mul_nonneg _ hu.le
        split_ifs <;> exact Int.cast_nonneg.mpr (by omega) }

/-- A choice of the header constants. -/
def sampleConstants : Constants :=
  { FIELD_OF_VIEW := 60, NEAR_PLANE := 1 / 10, FAR_PLANE := 1000, SPRINT_FOV_INCREASE := 6 / 5,
    COLLIDER_RADIUS := 1 / 5, COLLIDER_HEIGHT := 1, Y_CAMERA_OFFSET := 2 / 5,
    NEEDS_GROUNDED_TO_MOVE := false, SPRINT_MOVEMENT_INCREASE := 3 / 2,
    JUMP_MOVEMENT_MULTIPLIER := 1 / 2, MOVEMENT_SPEED := 200, ROTATION_SPEED := 3 / 10,
    MAX_X_LOOK_UP_ROTATION := 80, MAX_X_LOOK_DOWN_ROTATION := 80, MINE_RANGE := 10,
    Stone := 0, LENGTH := 10 }

/-- A world with two cells in storage: block 7 at `(0,7,0)`, active, and block 8 at `(0,7,1)`,
not active. Every ray hits the face of block 7 at `(0,7,1/2)` with normal `(0,0,1)`. -/
def sampleGame : Game :=
  { raycast := fun _ _ => some ⟨⟨0, 7, 1 / 2⟩, ⟨0, 0, 1⟩⟩
    locationToBlock := fun x y z _ =>
      if x = 0 ∧ y = 7 ∧ z = 0 then some 7 else if x = 0 ∧ y = 7 ∧ z = 1 then some 8 else none
    blocks := fun p =>
      if p = 7 then ⟨0, true, ⟨0, 7, 0⟩⟩ else ⟨0, false, ⟨0, 7, 1⟩⟩ }

/-- A controller at `(0,8,0)` looking along yaw 0 and pitch 0, with the left button held and no
target from an earlier frame. -/
def sampleController : FirstPersonController :=
  { lookRotation := ⟨0, 0⟩
    fwd := false, left := false, bwd := false, right := false, up := false, down := false
    isSprinting := false, isGrounded := true, flyMode := false, ghostMode := false
    replaceBlock := false, instantMining := false, lockRotation := false
    isMining := true, minedAmount := 0, lastBlock := none, blockSelected := 3
    transformMatrix := ⟨⟨0, 0, 0⟩, 0, 0⟩
    toRay := ⟨0, 0, 0⟩, fromRay := ⟨0, 0, 0⟩, toRayNormal := ⟨0, 0, 0⟩
    fromRayNormal := ⟨0, 0, 0⟩
    rigidBody := ⟨⟨3, 0, 4⟩, ⟨0, -10, 0⟩, 0, ⟨0, 8, 0⟩, ⟨0, 8, 0⟩⟩
    camera := ⟨60, 1 / 10, 1000, ⟨⟨0, 0, 0⟩, 0, 0⟩⟩
    game := sampleGame
    calls := [] }

/-- The sample controller one frame later: block 7 was the target of the frame before. -/
def sampleTargeting : FirstPersonController :=
  { sampleController with lastBlock := some 7 }

/-- A frame of the sample world with the given elapsed time. -/
def sampleFrame (deltaTime : ℚ) : FirstPersonController.Frame :=
  { deltaTime := deltaTime, body := sampleController.rigidBody, raycast := sampleGame.raycast }

/-- Twelve frames of the sample world whose times are `float` numbers and sum to exactly 1:
eleven of 11184811/134217728, the `float` nearest to 1/12, and one of 11184807/134217728. -/
def sampleTwelfths : List FirstPersonController.Frame :=
  List.replicate 11 (sampleFrame (11184811 / 134217728)) ++ [sampleFrame (11184807 / 134217728)]

/-- Ten frames of the sample world of 13421773/134217728 time units, the `float` nearest to
1/10. -/
def sampleTenths : List FirstPersonController.Frame :=
  List.replicate 10 (sampleFrame (13421773 / 134217728))

/-- The sample controller in a world where block 8, in front of the hit face, is active too
and of type 1. -/
def sampleOccupied : FirstPersonController :=
  { sampleController with
    game := { sampleGame with
      blocks := fun p => if p = 7 then ⟨0, true, ⟨0, 7, 0⟩⟩ else ⟨1, true, ⟨0, 7, 1⟩⟩ } }

/-- The sample controller with replace mode on. -/
def sampleReplacing : FirstPersonController :=
  { sampleController with replaceBlock := true }

/-- The sample controller after `setLockRotation(true)`. -/
def sampleLocked : FirstPersonController :=
  FirstPersonController.setLockRotation true sampleController

/-- A mouse-motion event with the given relative deltas. -/
def mouseMotion (xrel yrel : ℤ) : SDL_Event :=
  { type := .SDL_MOUSEMOTION, sym := .other, xrel := xrel, yrel := yrel, button := .other }

/-- A key-release event for the given key. -/
def keyUp (sym : Keycode) : SDL_Event :=
  { type := .SDL_KEYUP, sym := sym, xrel := 0, yrel := 0, button := .other }

/-- The sample controller with the forward and the backward key held together. -/
def sampleOpposing : FirstPersonController :=
  { sampleController with fwd := true, bwd := true }

/-- The sample controller in a world where no ray hits anything, with instant mining on and no
target from an earlier frame. -/
def sampleMiss : FirstPersonController :=
  { sampleController with
    instantMining := true
    game := { sampleGame with raycast := fun _ _ => none } }

/-- The sample controller with instant mining on; it has no target from an earlier frame. -/
def sampleInstant : FirstPersonController :=
  { sampleController with instantMining := true }

/-- The sample controller with instant mining on, one frame later: block 7 was the target of
the frame before. -/
def sampleInstantTargeting : FirstPersonController :=
  { sampleController with instantMining := true, lastBlock := some 7 }

/-- The sample controller with the last block type selected. -/
def sampleLastSelected : FirstPersonController :=
  { sampleController with blockSelected := 9 }

/-- The sample controller with the forward key held. -/
def sampleForward : FirstPersonController :=
  { sampleController with fwd := true }

/-- The sample controller in a world where every ray hits bedrock far below zero, at
`(0,-1000,0)` with normal `(0,1,0)`. -/
def sampleBedrock : FirstPersonController :=
  { sampleController with
    game := { sampleGame with raycast := fun _ _ => some ⟨⟨0, -1000, 0⟩, ⟨0, 1, 0⟩⟩ } }

/-- The sample controller before any input: the left button is not held. -/
def sampleIdle : FirstPersonController :=
  { sampleController with isMining := false }

/-- A mouse-button event of the given type for the given button. -/
def mouseButton (type : EventType) (button : MouseButton) : SDL_Event :=
  { type := type, sym := .other, xrel := 0, yrel := 0, button := button }

/-- A sample session: the left button is pressed, three frames of 1/2, 1/2 and 3/5 time units
pass, the Y key is released, and the left button is released. -/
def sampleSession : List FirstPersonController.Input :=
  [.onMouse (mouseButton .SDL_MOUSEBUTTONDOWN .SDL_BUTTON_LEFT),
   .update (sampleFrame (1 / 2)), .update (sampleFrame (1 / 2)), .update (sampleFrame (3 / 5)),
   .onKey (keyUp .SDLK_y),
   .onMouse (mouseButton .SDL_MOUSEBUTTONUP .SDL_BUTTON_LEFT)]

/-- The sample controller standing on a surface: every ray hits at `(0,7.3,0)`, 0.7 below the
body, with the normal pointing up. -/
def sampleStanding : FirstPersonController :=
  { sampleController with
    game := { sampleGame with raycast := fun _ _ => some ⟨⟨0, 73 / 10, 0⟩, ⟨0, 1, 0⟩⟩ } }

/-- The sample constants with `NEEDS_GROUNDED_TO_MOVE` on. -/
def gatedConstants : Constants :=
  { sampleConstants with NEEDS_GROUNDED_TO_MOVE := true }

/-- The sample controller in the air (the last ground check found no ground), no key held,
moving at `(3, 0, 4)`. -/
def sampleAirborne : FirstPersonController :=
  { sampleController with isGrounded := false }

/-! ## Auxiliary lemmas -/

namespace FirstPersonController

theorem moveStep_eq (M : MathFns) (K : Constants) (deltaTime : ℚ) (s : FirstPersonController) :
    ∃ v l, moveStep M K deltaTime s =
      { s with rigidBody := { s.rigidBody with linearVelocity := v }, calls := s.calls ++ l }
      ∧ ∀ c ∈ l, isDestroy c = false ∧ isFlag c = false := by
  unfold moveStep
  split
  · unfold handleMovement
    by_cases h : keyMovement s = ⟨0, 0, 0⟩
    · simp only [h, ne_eq, not_true_eq_false, if_false, setLinearVelocity, record]
      exact ⟨_, [_], rfl, by simp [isDestroy, isFlag]⟩
    · simp only [h, ne_eq, not_false_eq_true, if_true, setLinearVelocity, record]
      exact ⟨_, [_, _], by rw [List.append_assoc]; rfl, by simp [isDestroy, isFlag]⟩
  · exact ⟨s.rigidBody.linearVelocity, [], by simp, by simp⟩

theorem cameraStep_eq (M : MathFns) (K : Constants) (s : FirstPersonController) :
    ∃ g t, cameraStep M K s =
      { s with isGrounded := g, transformMatrix := t, camera := { s.camera with viewOf := t } } := by
  unfold cameraStep checkGrounded
  dsimp only
  split <;> exact ⟨_, _, rfl⟩

theorem castRayForBlock_fst_congr (M : MathFns) (K : Constants) (n : ℚ)
    (s t : FirstPersonController) (hBody : t.rigidBody.worldOrigin = s.rigidBody.worldOrigin)
    (hLook : t.lookRotation = s.lookRotation) (hRay : t.game.raycast = s.game.raycast)
    (hLoc : t.game.locationToBlock = s.game.locationToBlock) :
    (castRayForBlock M K n t).1 = (castRayForBlock M K n s).1 := by
  unfold castRayForBlock locationToBlock rayEnd rayStart
  simp only [hBody, hLook, hRay, hLoc]
  split <;> rfl

theorem castRayForBlock_snd (M : MathFns) (K : Constants) (n : ℚ) (s : FirstPersonController) :
    ∃ a b c d l, (castRayForBlock M K n s).2 =
      { s with toRay := a, fromRay := b, toRayNormal := c, fromRayNormal := d,
               calls := s.calls ++ l }
      ∧ ∀ e ∈ l, isDestroy e = false ∧ isFlag e = false ∧ isMove e = false := by
  unfold castRayForBlock
  dsimp only
  split
  · exact ⟨_, _, _, _, [_], rfl, by simp [isDestroy, isFlag, isMove]⟩
  · exact ⟨s.toRay, s.fromRay, s.toRayNormal, s.fromRayNormal, [], by simp, by simp⟩

theorem castRayForBlock_update (M : MathFns) (K : Constants) (n deltaTime : ℚ)
    (s : FirstPersonController) :
    (castRayForBlock M K n (cameraStep M K (moveStep M K deltaTime s))).1
      = (castRayForBlock M K n s).1 := by
  obtain ⟨v, l, hm, -⟩ := moveStep_eq M K deltaTime s
  obtain ⟨g, t, hc⟩ := cameraStep_eq M K (moveStep M K deltaTime s)
  apply castRayForBlock_fst_congr <;> rw [hc, hm]

theorem destroyBlock_eq (b : BlockPtr) (s : FirstPersonController) :
    destroyBlock b s =
      { s with
        minedAmount := 0
        game := { s.game with blocks := fun q =>
          if q = b then { s.game.blocks b with active := false } else s.game.blocks q }
        calls := s.calls ++ [Call.destroyBlock b,
          Call.flagNeighboursForRecalculateIfNecessary (s.game.blocks b).position.x
            (s.game.blocks b).position.y (s.game.blocks b).position.z] } := by
  simp [destroyBlock, record, setBlock, flagNeighboursForRecalculateIfNecessary]

theorem preMine_fields (M : MathFns) (K : Constants) (deltaTime : ℚ)
    (s : FirstPersonController) :
    (cameraStep M K (moveStep M K deltaTime s)).isMining = s.isMining
      ∧ (cameraStep M K (moveStep M K deltaTime s)).instantMining = s.instantMining
      ∧ (cameraStep M K (moveStep M K deltaTime s)).minedAmount = s.minedAmount
      ∧ (cameraStep M K (moveStep M K deltaTime s)).lastBlock = s.lastBlock
      ∧ (cameraStep M K (moveStep M K deltaTime s)).game = s.game
      ∧ ∃ l, (cameraStep M K (moveStep M K deltaTime s)).calls = s.calls ++ l
          ∧ ∀ c ∈ l, isDestroy c = false ∧ isFlag c = false := by
  obtain ⟨v, l, hm, hl⟩ := moveStep_eq M K deltaTime s
  obtain ⟨g, t, hc⟩ := cameraStep_eq M K (moveStep M K deltaTime s)
  rw [hc, hm]
  exact ⟨rfl, rfl, rfl, rfl, rfl, l, rfl, hl⟩

/-- The mining step on the same target as in the frame before, instant mining off. -/
theorem mineStep_same_target (M : MathFns) (K : Constants) (deltaTime : ℚ)
    (u : FirstPersonController) (b : BlockPtr) (hMining : u.isMining = true)
    (hInstant : u.instantMining = false)
    (hTarget : (castRayForBlock M K (-(1 / 5)) u).1 = some b) (hLast : u.lastBlock = some b) :
    (mineStep M K deltaTime u).isMining = true
      ∧ (mineStep M K deltaTime u).instantMining = false
      ∧ (mineStep M K deltaTime u).lastBlock = some b
      ∧ ∃ l, (mineStep M K deltaTime u).calls = u.calls ++ l
        ∧ (1 ≤ M.roundFloat (u.minedAmount + deltaTime) →
            (mineStep M K deltaTime u).minedAmount = 0 ∧ l.filter isDestroy = [Call.destroyBlock b])
        ∧ (M.roundFloat (u.minedAmount + deltaTime) < 1 →
            (mineStep M K deltaTime u).minedAmount = M.roundFloat (u.minedAmount + deltaTime)
              ∧ l.filter isDestroy = []) := by
  obtain ⟨a, b', c, d, l2, hs, hl2⟩ := castRayForBlock_snd M K (-(1 / 5)) u
  have hfl : l2.filter isDestroy = [] := by
    rw [List.filter_eq_nil_iff]
    intro e he
    simp [(hl2 e he).1]
  unfold mineStep
  generalize castRayForBlock M K (-(1 / 5)) u = r at hTarget hs
  obtain ⟨r1, r2⟩ := r
  simp only at hTarget hs
  subst hTarget hs
  by_cases hge : 1 ≤ M.roundFloat (u.minedAmount + deltaTime)
  · have hlt : ¬ M.roundFloat (u.minedAmount + deltaTime) < 1 := not_lt.mpr hge
    simp only [hMining, hLast, hInstant, destroyBlock_eq, hge, hlt]
    simp [hfl, isDestroy, isFlag]
  · have hlt : M.roundFloat (u.minedAmount + deltaTime) < 1 := not_le.mp hge
    simp only [hMining, hLast, hInstant, destroyBlock_eq, hge, hlt]
    simp [hfl]
    exact fun e he => (hl2 e he).1

/-- The mining step when the ray cast finds nothing or another block than the frame before. -/
theorem mineStep_other_target (M : MathFns) (K : Constants) (deltaTime : ℚ)
    (u : FirstPersonController) (hMining : u.isMining = true)
    (hTarget : (castRayForBlock M K (-(1 / 5)) u).1 = none
      ∨ (castRayForBlock M K (-(1 / 5)) u).1 ≠ u.lastBlock) :
    (mineStep M K deltaTime u).minedAmount = 0
      ∧ (mineStep M K deltaTime u).lastBlock = (castRayForBlock M K (-(1 / 5)) u).1
      ∧ (mineStep M K deltaTime u).isMining = true
      ∧ (mineStep M K deltaTime u).instantMining = u.instantMining
      ∧ ∃ l, (mineStep M K deltaTime u).calls = u.calls ++ l
        ∧ ∀ c ∈ l, isDestroy c = false ∧ isFlag c = false := by
  obtain ⟨a, b', c, d, l2, hs, hl2⟩ := castRayForBlock_snd M K (-(1 / 5)) u
  have hcond : ¬ ((castRayForBlock M K (-(1 / 5)) u).1 ≠ none
      ∧ (castRayForBlock M K (-(1 / 5)) u).1 = u.lastBlock) := by
    rintro ⟨h1, h2⟩
    rcases hTarget with h | h
    · exact h1 h
    · exact h h2
  unfold mineStep
  generalize castRayForBlock M K (-(1 / 5)) u = r at hcond hs
  obtain ⟨r1, r2⟩ := r
  simp only at hcond hs
  subst hs
  simp only [hMining, if_true, hcond, if_false]
  exact ⟨by trivial, by trivial, by trivial, by trivial, l2, by trivial, fun e he => ⟨(hl2 e he).1, (hl2 e he).2.1⟩⟩

/-- What the mining step leaves alone, whatever branch it takes. -/
theorem mineStep_keeps (M : MathFns) (K : Constants) (deltaTime : ℚ)
    (u : FirstPersonController) :
    (mineStep M K deltaTime u).lookRotation = u.lookRotation
      ∧ (mineStep M K deltaTime u).rigidBody = u.rigidBody
      ∧ (mineStep M K deltaTime u).game.raycast = u.game.raycast
      ∧ (mineStep M K deltaTime u).game.locationToBlock = u.game.locationToBlock
      ∧ (mineStep M K deltaTime u).isMining = u.isMining
      ∧ (mineStep M K deltaTime u).instantMining = u.instantMining
      ∧ ∃ l, (mineStep M K deltaTime u).calls = u.calls ++ l ∧ ∀ c ∈ l, isMove c = false := by
  obtain ⟨a, b', c, d, l2, hs, hl2⟩ := castRayForBlock_snd M K (-(1 / 5)) u
  have hmv : ∀ e ∈ l2, isMove e = false := fun e he => (hl2 e he).2.2
  unfold mineStep
  generalize castRayForBlock M K (-(1 / 5)) u = r at hs
  obtain ⟨r1, r2⟩ := r
  simp only at hs
  subst hs
  by_cases hM : u.isMining = true
  · simp only [hM, if_true]
    split_ifs
    · split
      · simp only [destroyBlock_eq]
        refine ⟨by trivial, by trivial, by trivial, by trivial, by trivial, by trivial, l2 ++ [_, _],
          List.append_assoc _ _ _, ?_⟩
        intro e he
        rcases List.mem_append.mp he with h | h
        · exact hmv e h
        · simp only [List.mem_cons, List.mem_singleton, List.not_mem_nil, or_false] at h
          rcases h with h | h <;> subst h <;> rfl
      · exact ⟨by trivial, by trivial, by trivial, by trivial, by trivial, by trivial, l2, by trivial, hmv⟩
    · exact ⟨by trivial, by trivial, by trivial, by trivial, by trivial, by trivial, l2, by trivial, hmv⟩
    · exact ⟨by trivial, by trivial, by trivial, by trivial, by trivial, by trivial, l2, by trivial, hmv⟩
  · rw [if_neg hM]
    exact ⟨rfl, rfl, rfl, rfl, rfl, rfl, [], by simp, by simp⟩

/-- What `update` leaves alone, whatever branches it takes. -/
theorem update_keeps (M : MathFns) (K : Constants) (deltaTime : ℚ)
    (s : FirstPersonController) :
    (update M K deltaTime s).lookRotation = s.lookRotation
      ∧ (update M K deltaTime s).rigidBody.worldOrigin = s.rigidBody.worldOrigin
      ∧ (update M K deltaTime s).rigidBody.motionStateOrigin = s.rigidBody.motionStateOrigin
      ∧ (update M K deltaTime s).game.raycast = s.game.raycast
      ∧ (update M K deltaTime s).game.locationToBlock = s.game.locationToBlock
      ∧ (update M K deltaTime s).isMining = s.isMining
      ∧ (update M K deltaTime s).instantMining = s.instantMining := by
  obtain ⟨v, l, hm, -⟩ := moveStep_eq M K deltaTime s
  obtain ⟨g, t, hc⟩ := cameraStep_eq M K (moveStep M K deltaTime s)
  obtain ⟨h1, h2, h3, h4, h5, h6, -⟩ :=
    mineStep_keeps M K deltaTime (cameraStep M K (moveStep M K deltaTime s))
  unfold update
  rw [h1, h2, h3, h4, h5, h6, hc, hm]
  exact ⟨rfl, rfl, rfl, rfl, rfl, rfl, rfl⟩

/-- One frame on the same target as the frame before, instant mining off. -/
theorem update_same_target (M : MathFns) (K : Constants) (deltaTime : ℚ)
    (s : FirstPersonController) (b : BlockPtr) (hMining : s.isMining = true)
    (hInstant : s.instantMining = false)
    (hTarget : (castRayForBlock M K (-(1 / 5)) s).1 = some b) (hLast : s.lastBlock = some b) :
    (update M K deltaTime s).isMining = true
      ∧ (update M K deltaTime s).instantMining = false
      ∧ (update M K deltaTime s).lastBlock = some b
      ∧ ∃ l, (update M K deltaTime s).calls = s.calls ++ l
        ∧ (1 ≤ M.roundFloat (s.minedAmount + deltaTime) →
            (update M K deltaTime s).minedAmount = 0 ∧ l.filter isDestroy = [Call.destroyBlock b])
        ∧ (M.roundFloat (s.minedAmount + deltaTime) < 1 →
            (update M K deltaTime s).minedAmount = M.roundFloat (s.minedAmount + deltaTime)
              ∧ l.filter isDestroy = []) := by
  obtain ⟨h1, h2, h3, h4, -, l1, h6, h7⟩ := preMine_fields M K deltaTime s
  have hr := castRayForBlock_update M K (-(1 / 5)) deltaTime s
  have hfl : l1.filter isDestroy = [] := by
    rw [List.filter_eq_nil_iff]
    intro e he
    simp [(h7 e he).1]
  obtain ⟨g1, g2, g3, l, g4, g5, g6⟩ := mineStep_same_target M K deltaTime
    (cameraStep M K (moveStep M K deltaTime s)) b (h1.trans hMining) (h2.trans hInstant)
    (hr.trans hTarget) (h4.trans hLast)
  rw [h3] at g5 g6
  refine ⟨g1, g2, g3, l1 ++ l, ?_, ?_, ?_⟩
  · unfold update; rw [g4, h6, List.append_assoc]
  · intro h
    obtain ⟨k1, k2⟩ := g5 h
    exact ⟨k1, by rw [List.filter_append, hfl, k2]; rfl⟩
  · intro h
    obtain ⟨k1, k2⟩ := g6 h
    exact ⟨k1, by rw [List.filter_append, hfl, k2]; rfl⟩

/-- One frame in which the ray cast finds nothing or another block than the frame before. -/
theorem update_other_target (M : MathFns) (K : Constants) (deltaTime : ℚ)
    (s : FirstPersonController) (hMining : s.isMining = true)
    (hTarget : (castRayForBlock M K (-(1 / 5)) s).1 = none
      ∨ (castRayForBlock M K (-(1 / 5)) s).1 ≠ s.lastBlock) :
    (update M K deltaTime s).minedAmount = 0
      ∧ (update M K deltaTime s).lastBlock = (castRayForBlock M K (-(1 / 5)) s).1
      ∧ ∃ l, (update M K deltaTime s).calls = s.calls ++ l
        ∧ ∀ c ∈ l, isDestroy c = false ∧ isFlag c = false := by
  obtain ⟨h1, -, -, h4, -, l1, h6, h7⟩ := preMine_fields M K deltaTime s
  have hr := castRayForBlock_update M K (-(1 / 5)) deltaTime s
  obtain ⟨g1, g2, -, -, l, g4, g5⟩ := mineStep_other_target M K deltaTime
    (cameraStep M K (moveStep M K deltaTime s)) (h1.trans hMining) (by rw [hr, h4]; exact hTarget)
  refine ⟨g1, g2.trans hr, l1 ++ l, ?_, ?_⟩
  · unfold update; rw [g4, h6, List.append_assoc]
  · intro e he
    rcases List.mem_append.mp he with h | h
    · exact h7 e h
    · exact g5 e h

/-- The target seen in a frame does not depend on the frames before it. -/
theorem targetsThroughout_iff (M : MathFns) (K : Constants) (b : BlockPtr)
    (frames : List Frame) :
    ∀ s : FirstPersonController, targetsThroughout M K b frames s ↔
      ∀ f ∈ frames, (castRayForBlock M K (-(1 / 5)) (enterFrame f s)).1 = some b := by
  induction frames with
  | nil => intro s; simp [targetsThroughout]
  | cons f fs ih =>
    intro s
    obtain ⟨h1, -, -, -, h4, -, -⟩ := update_keeps M K f.deltaTime (enterFrame f s)
    have key : ∀ g : Frame,
        (castRayForBlock M K (-(1 / 5)) (enterFrame g (update M K f.deltaTime (enterFrame f s)))).1
          = (castRayForBlock M K (-(1 / 5)) (enterFrame g s)).1 := by
      intro g
      apply castRayForBlock_fst_congr
      · rfl
      · exact h1
      · rfl
      · exact h4
    simp only [targetsThroughout, ih, key, List.forall_mem_cons]

theorem sum_deltaTime_nonneg (frames : List Frame) (hPos : ∀ f ∈ frames, 0 ≤ f.deltaTime) :
    0 ≤ (frames.map Frame.deltaTime).sum := by
  apply List.sum_nonneg
  intro x hx
  obtain ⟨f, hf, rfl⟩ := List.mem_map.mp hx
  exact hPos f hf

/-- Frames on one target, instant mining off: the mined amount and the calls of `destroyBlock`
are those of the accumulation of the frame times. -/
theorem runFrames_accumulates (M : MathFns) (K : Constants) (b : BlockPtr)
    (frames : List Frame) :
    ∀ s : FirstPersonController, s.isMining = true → s.instantMining = false →
      s.lastBlock = some b → targetsThroughout M K b frames s →
      (runFrames M K frames s).minedAmount
          = (accumulateMining M s.minedAmount (frames.map Frame.deltaTime)).1
        ∧ ∃ l, (runFrames M K frames s).calls = s.calls ++ l
          ∧ l.filter isDestroy
            = List.replicate (accumulateMining M s.minedAmount (frames.map Frame.deltaTime)).2
                (Call.destroyBlock b) := by
  induction frames with
  | nil => intro s _ _ _ _; exact ⟨rfl, [], by simp [runFrames], rfl⟩
  | cons f fs ih =>
    intro s hMining hInstant hLast hT
    obtain ⟨hT1, hT2⟩ := hT
    obtain ⟨g1, g2, g3, l, g4, g5, g6⟩ := update_same_target M K f.deltaTime (enterFrame f s) b
      hMining hInstant hT1 hLast
    have hmined : (enterFrame f s).minedAmount = s.minedAmount := rfl
    have hcalls : (enterFrame f s).calls = s.calls := rfl
    rw [hmined] at g5 g6
    rw [hcalls] at g4
    obtain ⟨i1, l', i2, i3⟩ := ih (update M K f.deltaTime (enterFrame f s)) g1 g2 g3 hT2
    simp only [List.map_cons, accumulateMining, runFrames]
    by_cases hge : 1 ≤ M.roundFloat (s.minedAmount + f.deltaTime)
    · obtain ⟨k1, k2⟩ := g5 hge
      rw [k1] at i1 i3
      rw [if_pos hge]
      refine ⟨i1, l ++ l', by rw [i2, g4, List.append_assoc], ?_⟩
      rw [List.filter_append, k2, i3, List.replicate_succ]
      rfl
    · obtain ⟨k1, k2⟩ := g6 (not_le.mp hge)
      rw [k1] at i1 i3
      rw [if_neg hge]
      refine ⟨i1, l ++ l', by rw [i2, g4, List.append_assoc], ?_⟩
      rw [List.filter_append, k2, i3]
      rfl

/-- Accumulating frame times that are not negative and stay below the threshold, without
rounding: no call of `destroyBlock`. -/
theorem accumulateMining_below (M : MathFns) (frames : List Frame) :
    ∀ a : ℚ, (∀ f ∈ frames, 0 ≤ f.deltaTime) → addsExactly M a frames →
      a + (frames.map Frame.deltaTime).sum < 1 →
      (accumulateMining M a (frames.map Frame.deltaTime)).2 = 0 := by
  induction frames with
  | nil => intro a _ _ _; rfl
  | cons f fs ih =>
    intro a hPos hExact hSum
    obtain ⟨hE1, hE2⟩ := hExact
    have hPos' : ∀ g ∈ fs, 0 ≤ g.deltaTime := fun g hg => hPos g (List.mem_cons_of_mem _ hg)
    have hrest := sum_deltaTime_nonneg fs hPos'
    simp only [List.map_cons, List.sum_cons] at hSum
    have hlt : a + f.deltaTime < 1 := by linarith
    rw [if_neg (not_le.mpr hlt)] at hE2
    simp only [List.map_cons, accumulateMining, hE1, if_neg (not_le.mpr hlt)]
    exact ih (a + f.deltaTime) hPos' hE2 (by linarith)

/-- Accumulating frame times that are not negative and reach the threshold exactly at their
end, without rounding: one call of `destroyBlock`. -/
theorem accumulateMining_at_threshold (M : MathFns) (frames : List Frame) :
    ∀ a : ℚ, (∀ f ∈ frames, 0 ≤ f.deltaTime) → addsExactly M a frames →
      a < 1 → a + (frames.map Frame.deltaTime).sum = 1 →
      (accumulateMining M a (frames.map Frame.deltaTime)).2 = 1 := by
  induction frames with
  | nil =>
    intro a _ _ hlt hSum
    simp only [List.map_nil, List.sum_nil, add_zero] at hSum
    linarith
  | cons f fs ih =>
    intro a hPos hExact hlt hSum
    obtain ⟨hE1, hE2⟩ := hExact
    have hPos' : ∀ g ∈ fs, 0 ≤ g.deltaTime := fun g hg => hPos g (List.mem_cons_of_mem _ hg)
    have hrest := sum_deltaTime_nonneg fs hPos'
    simp only [List.map_cons, List.sum_cons] at hSum
    simp only [List.map_cons, accumulateMining, hE1]
    by_cases hge : 1 ≤ a + f.deltaTime
    · rw [if_pos hge] at hE2
      rw [if_pos hge, accumulateMining_below M fs 0 hPos' hE2 (by linarith)]
    · rw [if_neg hge] at hE2
      rw [if_neg hge]
      exact ih (a + f.deltaTime) hPos' hE2 (not_le.mp hge) (by linarith)

/-- Evaluation of `roundFloat32` at a positive number: with `2 ^ e ≤ q < 2 ^ (e + 1)` and `n` the
integer strictly within one half of `q / 2 ^ (e - 23)`, the result is `n * 2 ^ (e - 23)`. -/
theorem roundFloat32_eq (q r : ℚ) (e n : ℤ) (hq : 0 < q)
    (hlo : (2 : ℚ) ^ e ≤ q) (hhi : q < (2 : ℚ) ^ (e + 1))
    (hn1 : (n : ℚ) - 1 / 2 < q / 2 ^ (e - 23)) (hn2 : q / 2 ^ (e - 23) < n + 1 / 2)
    (hr : (n : ℚ) * 2 ^ (e - 23) = r) : roundFloat32 q = r := by
  have he : Int.log 2 |q| = e := by
    rw [abs_of_pos hq]
    apply le_antisymm
    · have : Int.log 2 q < e + 1 :=
        (Int.lt_zpow_iff_log_lt (by norm_num) hq).mp (by exact_mod_cast hhi)
      omega
    · exact (Int.zpow_le_iff_le_log (by norm_num) hq).mp (by exact_mod_cast hlo)
  unfold roundFloat32
  rw [if_neg (ne_of_gt hq)]
  dsimp only
  rw [he, abs_of_pos hq, if_neg (not_lt.mpr hq.le), one_mul, ← hr]
  congr 1
  by_cases hc : (n : ℚ) ≤ q / 2 ^ (e - 23)
  · have hf : ⌊q / (2 : ℚ) ^ (e - 23)⌋ = n := by
      rw [Int.floor_eq_iff]
      exact ⟨hc, by linarith⟩
    rw [hf, if_pos (by linarith)]
  · have hc' := not_le.mp hc
    have hf : ⌊q / (2 : ℚ) ^ (e - 23)⌋ = n - 1 := by
      rw [Int.floor_eq_iff]
      push_cast
      exact ⟨by linarith, by linarith⟩
    rw [hf, if_neg (by push_cast; linarith), if_pos (by push_cast; linarith)]
    push_cast
    ring

/-- Rounding commutes with negation. -/
theorem roundFloat32_neg (q : ℚ) : roundFloat32 (-q) = -roundFloat32 q := by
  unfold roundFloat32
  by_cases h0 : q = 0
  · simp [h0]
  · rw [if_neg h0, if_neg (neg_ne_zero.mpr h0)]
    dsimp only
    rw [abs_neg]
    rcases lt_or_gt_of_ne h0 with h | h
    · rw [if_pos h, if_neg (not_lt.mpr (neg_nonneg.mpr h.le))]
      ring
    · rw [if_neg (not_lt.mpr h.le), if_pos (neg_lt_zero.mpr h)]
      ring

/-- One step of the accumulation that stays below the threshold. -/
theorem accumulateMining_step_below (M : MathFns) (a d r : ℚ) (ds : List ℚ)
    (h : M.roundFloat (a + d) = r) (hr : r < 1) :
    accumulateMining M a (d :: ds) = accumulateMining M r ds := by
  rw [accumulateMining, h, if_neg (not_le.mpr hr)]

/-- One step of the accumulation that reaches the threshold. -/
theorem accumulateMining_step_reach (M : MathFns) (a d r : ℚ) (ds : List ℚ)
    (h : M.roundFloat (a + d) = r) (hr : 1 ≤ r) :
    accumulateMining M a (d :: ds)
      = ((accumulateMining M 0 ds).1, (accumulateMining M 0 ds).2 + 1) := by
  rw [accumulateMining, h, if_pos hr]

/-- In the sample world the mining ray cast finds block 7, whatever the library functions. -/
theorem sample_target (M : MathFns) (deltaTime : ℚ) (s : FirstPersonController)
    (hLoc : s.game.locationToBlock = sampleGame.locationToBlock) :
    (castRayForBlock M sampleConstants (-(1 / 5)) (enterFrame (sampleFrame deltaTime) s)).1
      = some 7 := by
  norm_num [castRayForBlock, enterFrame, sampleFrame, sampleGame, locationToBlock, hitToCell,
    toInt, Vec3.add, Vec3.scale, hLoc]

/-- In the sample world every list of sample frames targets block 7 throughout. -/
theorem sample_targetsThroughout (M : MathFns) (frames : List Frame) (s : FirstPersonController)
    (hLoc : s.game.locationToBlock = sampleGame.locationToBlock)
    (h : ∀ f ∈ frames, ∃ t, f = sampleFrame t) :
    targetsThroughout M sampleConstants 7 frames s := by
  rw [targetsThroughout_iff]
  intro f hf
  obtain ⟨t, rfl⟩ := h f hf
  exact sample_target M t s hLoc

/-- The accumulation of eleven times 11184811/134217728 and one time 11184807/134217728 in
`float` arithmetic: it ends at 8388607/8388608 and never reaches the threshold. -/
theorem accumulateMining_twelfths :
    accumulateMining floatMath 0 (sampleTwelfths.map Frame.deltaTime) = (8388607 / 8388608, 0) := by
  have r0 : floatMath.roundFloat (0 + 11184811 / 134217728) = 11184811 / 134217728 :=
    roundFloat32_eq _ _ (-4) 11184811 (by norm_num) (by norm_num) (by norm_num) (by norm_num)
      (by norm_num) (by norm_num)
  have r1 : floatMath.roundFloat (11184811 / 134217728 + 11184811 / 134217728)
      = 11184811 / 67108864 :=
    roundFloat32_eq _ _ (-3) 11184811 (by norm_num) (by norm_num) (by norm_num) (by norm_num)
      (by norm_num) (by norm_num)
  have r2 : floatMath.roundFloat (11184811 / 67108864 + 11184811 / 134217728) = 1 / 4 :=
    roundFloat32_eq _ _ (-2) 8388608 (by norm_num) (by norm_num) (by norm_num) (by norm_num)
      (by norm_num) (by norm_num)
  have r3 : floatMath.roundFloat (1 / 4 + 11184811 / 134217728) = 11184811 / 33554432 :=
    roundFloat32_eq _ _ (-2) 11184811 (by norm_num) (by norm_num) (by norm_num) (by norm_num)
      (by norm_num) (by norm_num)
  have r4 : floatMath.roundFloat (11184811 / 33554432 + 11184811 / 134217728)
      = 6990507 / 16777216 :=
    roundFloat32_eq _ _ (-2) 13981014 (by norm_num) (by norm_num) (by norm_num) (by norm_num)
      (by norm_num) (by norm_num)
  have r5 : floatMath.roundFloat (6990507 / 16777216 + 11184811 / 134217728) = 1 / 2 :=
    roundFloat32_eq _ _ (-1) 8388608 (by norm_num) (by norm_num) (by norm_num) (by norm_num)
      (by norm_num) (by norm_num)
  have r6 : floatMath.roundFloat (1 / 2 + 11184811 / 134217728) = 9786709 / 16777216 :=
    roundFloat32_eq _ _ (-1) 9786709 (by norm_num) (by norm_num) (by norm_num) (by norm_num)
      (by norm_num) (by norm_num)
  have r7 : floatMath.roundFloat (9786709 / 16777216 + 11184811 / 134217728) = 5592405 / 8388608 :=
    roundFloat32_eq _ _ (-1) 11184810 (by norm_num) (by norm_num) (by norm_num) (by norm_num)
      (by norm_num) (by norm_num)
  have r8 : floatMath.roundFloat (5592405 / 8388608 + 11184811 / 134217728) = 12582911 / 16777216 :=
    roundFloat32_eq _ _ (-1) 12582911 (by norm_num) (by norm_num) (by norm_num) (by norm_num)
      (by norm_num) (by norm_num)
  have r9 : floatMath.roundFloat (12582911 / 16777216 + 11184811 / 134217728) = 3495253 / 4194304 :=
    roundFloat32_eq _ _ (-1) 13981012 (by norm_num) (by norm_num) (by norm_num) (by norm_num)
      (by norm_num) (by norm_num)
  have r10 : floatMath.roundFloat (3495253 / 4194304 + 11184811 / 134217728)
      = 15379113 / 16777216 :=
    roundFloat32_eq _ _ (-1) 15379113 (by norm_num) (by norm_num) (by norm_num) (by norm_num)
      (by norm_num) (by norm_num)
  have r11 : floatMath.roundFloat (15379113 / 16777216 + 11184807 / 134217728)
      = 8388607 / 8388608 :=
    roundFloat32_eq _ _ (-1) 16777214 (by norm_num) (by norm_num) (by norm_num) (by norm_num)
      (by norm_num) (by norm_num)
  have hl : sampleTwelfths.map Frame.deltaTime
      = [11184811 / 134217728, 11184811 / 134217728, 11184811 / 134217728,
          11184811 / 134217728, 11184811 / 134217728, 11184811 / 134217728,
          11184811 / 134217728, 11184811 / 134217728, 11184811 / 134217728,
          11184811 / 134217728, 11184811 / 134217728, 11184807 / 134217728] := rfl
  rw [hl, accumulateMining_step_below _ _ _ _ _ r0 (by norm_num),
    accumulateMining_step_below _ _ _ _ _ r1 (by norm_num),
    accumulateMining_step_below _ _ _ _ _ r2 (by norm_num),
    accumulateMining_step_below _ _ _ _ _ r3 (by norm_num),
    accumulateMining_step_below _ _ _ _ _ r4 (by norm_num),
    accumulateMining_step_below _ _ _ _ _ r5 (by norm_num),
    accumulateMining_step_below _ _ _ _ _ r6 (by norm_num),
    accumulateMining_step_below _ _ _ _ _ r7 (by norm_num),
    accumulateMining_step_below _ _ _ _ _ r8 (by norm_num),
    accumulateMining_step_below _ _ _ _ _ r9 (by norm_num),
    accumulateMining_step_below _ _ _ _ _ r10 (by norm_num),
    accumulateMining_step_below _ _ _ _ _ r11 (by norm_num)]
  rfl

/-- The accumulation of ten times 13421773/134217728, the `float` nearest to 1/10, in `float`
arithmetic: the tenth addition gives 8388609/8388608 and reaches the threshold. -/
theorem accumulateMining_tenths :
    accumulateMining floatMath 0 (sampleTenths.map Frame.deltaTime) = (0, 1) := by
  have r0 : floatMath.roundFloat (0 + 13421773 / 134217728) = 13421773 / 134217728 :=
    roundFloat32_eq _ _ (-4) 13421773 (by norm_num) (by norm_num) (by norm_num) (by norm_num)
      (by norm_num) (by norm_num)
  have r1 : floatMath.roundFloat (13421773 / 134217728 + 13421773 / 134217728)
      = 13421773 / 67108864 :=
    roundFloat32_eq _ _ (-3) 13421773 (by norm_num) (by norm_num) (by norm_num) (by norm_num)
      (by norm_num) (by norm_num)
  have r2 : floatMath.roundFloat (13421773 / 67108864 + 13421773 / 134217728)
      = 5033165 / 16777216 :=
    roundFloat32_eq _ _ (-2) 10066330 (by norm_num) (by norm_num) (by norm_num) (by norm_num)
      (by norm_num) (by norm_num)
  have r3 : floatMath.roundFloat (5033165 / 16777216 + 13421773 / 134217728)
      = 13421773 / 33554432 :=
    roundFloat32_eq _ _ (-2) 13421773 (by norm_num) (by norm_num) (by norm_num) (by norm_num)
      (by norm_num) (by norm_num)
  have r4 : floatMath.roundFloat (13421773 / 33554432 + 13421773 / 134217728) = 1 / 2 :=
    roundFloat32_eq _ _ (-1) 8388608 (by norm_num) (by norm_num) (by norm_num) (by norm_num)
      (by norm_num) (by norm_num)
  have r5 : floatMath.roundFloat (1 / 2 + 13421773 / 134217728) = 5033165 / 8388608 :=
    roundFloat32_eq _ _ (-1) 10066330 (by norm_num) (by norm_num) (by norm_num) (by norm_num)
      (by norm_num) (by norm_num)
  have r6 : floatMath.roundFloat (5033165 / 8388608 + 13421773 / 134217728) = 2936013 / 4194304 :=
    roundFloat32_eq _ _ (-1) 11744052 (by norm_num) (by norm_num) (by norm_num) (by norm_num)
      (by norm_num) (by norm_num)
  have r7 : floatMath.roundFloat (2936013 / 4194304 + 13421773 / 134217728) = 6710887 / 8388608 :=
    roundFloat32_eq _ _ (-1) 13421774 (by norm_num) (by norm_num) (by norm_num) (by norm_num)
      (by norm_num) (by norm_num)
  have r8 : floatMath.roundFloat (6710887 / 8388608 + 13421773 / 134217728) = 1887437 / 2097152 :=
    roundFloat32_eq _ _ (-1) 15099496 (by norm_num) (by norm_num) (by norm_num) (by norm_num)
      (by norm_num) (by norm_num)
  have r9 : floatMath.roundFloat (1887437 / 2097152 + 13421773 / 134217728) = 8388609 / 8388608 :=
    roundFloat32_eq _ _ (0) 8388609 (by norm_num) (by norm_num) (by norm_num) (by norm_num)
      (by norm_num) (by norm_num)
  have hl : sampleTenths.map Frame.deltaTime
      = [13421773 / 134217728, 13421773 / 134217728, 13421773 / 134217728,
          13421773 / 134217728, 13421773 / 134217728, 13421773 / 134217728,
          13421773 / 134217728, 13421773 / 134217728, 13421773 / 134217728,
          13421773 / 134217728] := rfl
  rw [hl, accumulateMining_step_below _ _ _ _ _ r0 (by norm_num),
    accumulateMining_step_below _ _ _ _ _ r1 (by norm_num),
    accumulateMining_step_below _ _ _ _ _ r2 (by norm_num),
    accumulateMining_step_below _ _ _ _ _ r3 (by norm_num),
    accumulateMining_step_below _ _ _ _ _ r4 (by norm_num),
    accumulateMining_step_below _ _ _ _ _ r5 (by norm_num),
    accumulateMining_step_below _ _ _ _ _ r6 (by norm_num),
    accumulateMining_step_below _ _ _ _ _ r7 (by norm_num),
    accumulateMining_step_below _ _ _ _ _ r8 (by norm_num),
    accumulateMining_step_reach _ _ _ _ _ r9 (by norm_num)]
  rfl

/-- The accumulation of four times 1/4 in `float` arithmetic does not round. -/
theorem addsExactly_quarters :
    addsExactly floatMath 0 (List.replicate 4 (sampleFrame (1 / 4))) := by
  have r0 : floatMath.roundFloat (0 + 1 / 4) = 0 + 1 / 4 :=
    roundFloat32_eq _ _ (-2) 8388608 (by norm_num) (by norm_num) (by norm_num) (by norm_num)
      (by norm_num) (by norm_num)
  have r1 : floatMath.roundFloat (0 + 1 / 4 + 1 / 4) = 0 + 1 / 4 + 1 / 4 :=
    roundFloat32_eq _ _ (-1) 8388608 (by norm_num) (by norm_num) (by norm_num) (by norm_num)
      (by norm_num) (by norm_num)
  have r2 : floatMath.roundFloat (0 + 1 / 4 + 1 / 4 + 1 / 4) = 0 + 1 / 4 + 1 / 4 + 1 / 4 :=
    roundFloat32_eq _ _ (-1) 12582912 (by norm_num) (by norm_num) (by norm_num) (by norm_num)
      (by norm_num) (by norm_num)
  have r3 : floatMath.roundFloat (0 + 1 / 4 + 1 / 4 + 1 / 4 + 1 / 4)
      = 0 + 1 / 4 + 1 / 4 + 1 / 4 + 1 / 4 :=
    roundFloat32_eq _ _ 0 8388608 (by norm_num) (by norm_num) (by norm_num) (by norm_num)
      (by norm_num) (by norm_num)
  have c0 : ¬ (1 : ℚ) ≤ 0 + 1 / 4 := by norm_num
  have c1 : ¬ (1 : ℚ) ≤ 0 + 1 / 4 + 1 / 4 := by norm_num
  have c2 : ¬ (1 : ℚ) ≤ 0 + 1 / 4 + 1 / 4 + 1 / 4 := by norm_num
  show addsExactly floatMath 0
    [sampleFrame (1 / 4), sampleFrame (1 / 4), sampleFrame (1 / 4), sampleFrame (1 / 4)]
  simp only [addsExactly, sampleFrame, if_neg c0, if_neg c1, if_neg c2, r0, r1, r2, r3, and_self]

/-- One addition of 1 to zero in `float` arithmetic does not round. -/
theorem addsExactly_one : addsExactly floatMath 0 [sampleFrame 1] := by
  have r0 : floatMath.roundFloat (0 + 1) = 0 + 1 :=
    roundFloat32_eq _ _ 0 8388608 (by norm_num) (by norm_num) (by norm_num) (by norm_num)
      (by norm_num) (by norm_num)
  simp only [addsExactly, sampleFrame, r0, and_self]

theorem sample_castRay_mine :
    (castRayForBlock sampleMath sampleConstants (-(1 / 5)) sampleController).1 = some 7 := by
  norm_num [castRayForBlock, sampleController, sampleGame, locationToBlock, hitToCell, toInt,
    Vec3.add, Vec3.scale]

theorem sample_castRay_place :
    (castRayForBlock sampleMath sampleConstants (1 / 5) sampleController).1 = some 8 := by
  norm_num [castRayForBlock, sampleController, sampleGame, locationToBlock, hitToCell, toInt,
    Vec3.add, Vec3.scale]

/-! ## Mining: target changes and the threshold -/

/-- C1. With mining input held, when the ray cast of `update` (which returns what
`castRayForBlock` returns on the state before the call, see `castRayForBlock_update`) finds no
block or a block other than `lastBlock`, then after `update` the mined amount is zero, no entry
into `destroyBlock` was recorded during the call, and `lastBlock` is what the ray cast found. -/
theorem update_target_change_resets_mining (M : MathFns) (K : Constants) (deltaTime : ℚ)
    (s : FirstPersonController) (hMining : s.isMining = true)
    (hTarget : (castRayForBlock M K (-(1 / 5)) s).1 = none
      ∨ (castRayForBlock M K (-(1 / 5)) s).1 ≠ s.lastBlock) :
    (update M K deltaTime s).minedAmount = 0
      ∧ (∀ c ∈ callsSince s (update M K deltaTime s), isDestroy c = false)
      ∧ (update M K deltaTime s).lastBlock = (castRayForBlock M K (-(1 / 5)) s).1 := by
  obtain ⟨h1, h2, l, h3, h4⟩ := update_other_target M K deltaTime s hMining hTarget
  refine ⟨h1, ?_, h2⟩
  intro c hc
  rw [callsSince, h3, List.drop_left] at hc
  exact (h4 c hc).1

/-- Witness of C1: the sample controller, which had no target before, finds block 7. -/
theorem update_target_change_resets_mining_witness :
    sampleController.isMining = true
      ∧ (castRayForBlock sampleMath sampleConstants (-(1 / 5)) sampleController).1
          ≠ sampleController.lastBlock
      ∧ (update sampleMath sampleConstants (1 / 10) sampleController).minedAmount = 0
      ∧ (∀ c ∈ callsSince sampleController
            (update sampleMath sampleConstants (1 / 10) sampleController), isDestroy c = false)
      ∧ (update sampleMath sampleConstants (1 / 10) sampleController).lastBlock = some 7 := by
  have hne : (castRayForBlock sampleMath sampleConstants (-(1 / 5)) sampleController).1
      ≠ sampleController.lastBlock := by
    rw [sample_castRay_mine]; simp [sampleController]
  have h := update_target_change_resets_mining sampleMath sampleConstants (1 / 10)
    sampleController rfl (Or.inr hne)
  rw [sample_castRay_mine] at h
  exact ⟨rfl, hne, h⟩

/-- C2, as amended. Consecutive frames with mining input held and instant mining off, in which
the ray cast returns the same block `b` every frame, whose frame times are not negative and sum to
exactly 1, in which no addition `minedAmount += deltaTime` rounds (`addsExactly`), starting from
mined amount zero with `b` already the target of the frame before: exactly one entry into
`destroyBlock` is recorded over the frames, and it is for `b`. -/
theorem runFrames_threshold_destroys_once (M : MathFns) (K : Constants) (b : BlockPtr)
    (frames : List Frame) (s : FirstPersonController)
    (hMining : s.isMining = true) (hInstant : s.instantMining = false)
    (hZero : s.minedAmount = 0) (hLast : s.lastBlock = some b)
    (hPos : ∀ f ∈ frames, 0 ≤ f.deltaTime)
    (hTarget : targetsThroughout M K b frames s)
    (hSum : (frames.map Frame.deltaTime).sum = 1)
    (hExact : addsExactly M 0 frames) :
    (callsSince s (runFrames M K frames s)).filter isDestroy = [Call.destroyBlock b] := by
  obtain ⟨-, l, h1, h2⟩ := runFrames_accumulates M K b frames s hMining hInstant hLast hTarget
  rw [hZero, accumulateMining_at_threshold M frames 0 hPos hExact (by norm_num)
    (by rw [hSum]; norm_num)] at h2
  rw [callsSince, h1, List.drop_left, h2]
  rfl

/-- Witness of C2, with additions that round as `float` additions do: one frame of 1 time unit,
and four frames of 1/4 time unit. -/
theorem runFrames_threshold_destroys_once_witness :
    (addsExactly floatMath 0 [sampleFrame 1]
      ∧ (callsSince sampleTargeting
          (runFrames floatMath sampleConstants [sampleFrame 1] sampleTargeting)).filter isDestroy
        = [Call.destroyBlock 7])
    ∧ ((List.replicate 4 (sampleFrame (1 / 4))).map Frame.deltaTime).sum = 1
    ∧ targetsThroughout floatMath sampleConstants 7 (List.replicate 4 (sampleFrame (1 / 4)))
        sampleTargeting
    ∧ addsExactly floatMath 0 (List.replicate 4 (sampleFrame (1 / 4)))
    ∧ (callsSince sampleTargeting
        (runFrames floatMath sampleConstants (List.replicate 4 (sampleFrame (1 / 4)))
          sampleTargeting)).filter isDestroy
      = [Call.destroyBlock 7] := by
  have hSum : ((List.replicate 4 (sampleFrame (1 / 4))).map Frame.deltaTime).sum = 1 := by
    norm_num [sampleFrame]
  have hFour : ∀ f ∈ List.replicate 4 (sampleFrame (1 / 4)), f = sampleFrame (1 / 4) :=
    fun f hf => List.eq_of_mem_replicate hf
  have hT := sample_targetsThroughout floatMath (List.replicate 4 (sampleFrame (1 / 4)))
    sampleTargeting rfl (fun f hf => ⟨_, hFour f hf⟩)
  refine ⟨⟨addsExactly_one, ?_⟩, hSum, hT, addsExactly_quarters, ?_⟩
  · exact runFrames_threshold_destroys_once floatMath sampleConstants 7 [sampleFrame 1]
      sampleTargeting rfl rfl rfl rfl (by norm_num [sampleFrame])
      (sample_targetsThroughout floatMath _ _ rfl (by simp)) (by norm_num [sampleFrame])
      addsExactly_one
  · exact runFrames_threshold_destroys_once floatMath sampleConstants 7 _
      sampleTargeting rfl rfl rfl rfl
      (fun f hf => by rw [hFour f hf]; norm_num [sampleFrame])
      hT hSum addsExactly_quarters

/-- Counterexample to C2 as stated, with additions that round as `float` additions do. In all
three runs mining input is held, instant mining is off, the mined amount starts at zero, the ray
cast returns block 7 in every frame and the frame times sum to exactly 1. First: from the sample
controller, whose `lastBlock` is null, one frame of 1 time unit records no entry into
`destroyBlock`. Second: with block 7 already the target, the frame times 2, 2 and -3 record two
entries into `destroyBlock`. Third: with block 7 already the target, eleven frames of
11184811/134217728 and one of 11184807/134217728 time units, which are `float` numbers that are
not negative, record no entry into `destroyBlock`: the mined amount ends at 8388607/8388608. -/
theorem runFrames_threshold_counterexample :
    (sampleController.isMining = true ∧ sampleController.instantMining = false
      ∧ sampleController.minedAmount = 0
      ∧ targetsThroughout floatMath sampleConstants 7 [sampleFrame 1] sampleController
      ∧ ([sampleFrame 1].map Frame.deltaTime).sum = 1
      ∧ (callsSince sampleController
          (runFrames floatMath sampleConstants [sampleFrame 1] sampleController)).filter
            isDestroy = [])
    ∧ (sampleTargeting.isMining = true ∧ sampleTargeting.instantMining = false
      ∧ sampleTargeting.minedAmount = 0
      ∧ targetsThroughout floatMath sampleConstants 7
          [sampleFrame 2, sampleFrame 2, sampleFrame (-3)] sampleTargeting
      ∧ ([sampleFrame 2, sampleFrame 2, sampleFrame (-3)].map Frame.deltaTime).sum = 1
      ∧ (callsSince sampleTargeting
          (runFrames floatMath sampleConstants [sampleFrame 2, sampleFrame 2, sampleFrame (-3)]
            sampleTargeting)).filter isDestroy = [Call.destroyBlock 7, Call.destroyBlock 7])
    ∧ (sampleTargeting.isMining = true ∧ sampleTargeting.instantMining = false
      ∧ sampleTargeting.minedAmount = 0 ∧ sampleTargeting.lastBlock = some 7
      ∧ targetsThroughout floatMath sampleConstants 7 sampleTwelfths sampleTargeting
      ∧ (∀ f ∈ sampleTwelfths, 0 ≤ f.deltaTime
          ∧ floatMath.roundFloat f.deltaTime = f.deltaTime)
      ∧ (sampleTwelfths.map Frame.deltaTime).sum = 1
      ∧ (runFrames floatMath sampleConstants sampleTwelfths sampleTargeting).minedAmount
          = 8388607 / 8388608
      ∧ (callsSince sampleTargeting
          (runFrames floatMath sampleConstants sampleTwelfths sampleTargeting)).filter
            isDestroy = []) := by
  have hTw : ∀ f ∈ sampleTwelfths, f = sampleFrame (11184811 / 134217728)
      ∨ f = sampleFrame (11184807 / 134217728) := by
    intro f hf
    rcases List.mem_append.mp hf with h | h
    · exact Or.inl (List.eq_of_mem_replicate h)
    · exact Or.inr (List.mem_singleton.mp h)
  have hTwT := sample_targetsThroughout floatMath sampleTwelfths sampleTargeting rfl
    (fun f hf => (hTw f hf).elim (fun h => ⟨_, h⟩) (fun h => ⟨_, h⟩))
  have q1 : floatMath.roundFloat (11184811 / 134217728) = 11184811 / 134217728 :=
    roundFloat32_eq _ _ (-4) 11184811 (by norm_num) (by norm_num) (by norm_num) (by norm_num)
      (by norm_num) (by norm_num)
  have q2 : floatMath.roundFloat (11184807 / 134217728) = 11184807 / 134217728 :=
    roundFloat32_eq _ _ (-4) 11184807 (by norm_num) (by norm_num) (by norm_num) (by norm_num)
      (by norm_num) (by norm_num)
  have p2 : floatMath.roundFloat (0 + 2) = 2 :=
    roundFloat32_eq _ _ 1 8388608 (by norm_num) (by norm_num) (by norm_num) (by norm_num)
      (by norm_num) (by norm_num)
  have p3 : floatMath.roundFloat (0 + -3) = -3 := by
    have h3 : roundFloat32 3 = 3 :=
      roundFloat32_eq _ _ 1 12582912 (by norm_num) (by norm_num) (by norm_num) (by norm_num)
        (by norm_num) (by norm_num)
    show roundFloat32 (0 + -3) = -3
    rw [zero_add, roundFloat32_neg, h3]
  have hacc : accumulateMining floatMath 0
      ([sampleFrame 2, sampleFrame 2, sampleFrame (-3)].map Frame.deltaTime) = (-3, 2) := by
    have hl : [sampleFrame 2, sampleFrame 2, sampleFrame (-3)].map Frame.deltaTime
        = [2, 2, -3] := rfl
    rw [hl, accumulateMining_step_reach _ _ _ _ _ p2 (by norm_num),
      accumulateMining_step_reach _ _ _ _ _ p2 (by norm_num),
      accumulateMining_step_below _ _ _ _ _ p3 (by norm_num)]
    rfl
  refine ⟨⟨rfl, rfl, rfl, sample_targetsThroughout floatMath _ _ rfl (by simp),
      by norm_num [sampleFrame], ?_⟩,
    ⟨rfl, rfl, rfl, sample_targetsThroughout floatMath _ _ rfl (by simp),
      by norm_num [sampleFrame], ?_⟩,
    ⟨rfl, rfl, rfl, rfl, hTwT, ?_, by norm_num [sampleTwelfths, sampleFrame], ?_, ?_⟩⟩
  · have hne : (castRayForBlock floatMath sampleConstants (-(1 / 5))
        (enterFrame (sampleFrame 1) sampleController)).1
        ≠ (enterFrame (sampleFrame 1) sampleController).lastBlock := by
      rw [sample_target floatMath 1 sampleController rfl]
      simp [enterFrame, sampleController]
    obtain ⟨-, -, l, h3, h4⟩ := update_other_target floatMath sampleConstants 1
      (enterFrame (sampleFrame 1) sampleController) rfl (Or.inr hne)
    have h5 : (runFrames floatMath sampleConstants [sampleFrame 1] sampleController).calls
        = sampleController.calls ++ l := h3
    rw [callsSince, h5, List.drop_left, List.filter_eq_nil_iff]
    intro c hc
    simp [(h4 c hc).1]
  · obtain ⟨-, l, h1, h2⟩ := runFrames_accumulates floatMath sampleConstants 7
      [sampleFrame 2, sampleFrame 2, sampleFrame (-3)] sampleTargeting rfl rfl rfl
      (sample_targetsThroughout floatMath _ _ rfl (by simp))
    have h0 : sampleTargeting.minedAmount = 0 := rfl
    rw [h0, hacc] at h2
    rw [callsSince, h1, List.drop_left, h2]
    rfl
  · intro f hf
    rcases hTw f hf with h | h
    · rw [h]
      exact ⟨by norm_num [sampleFrame], q1⟩
    · rw [h]
      exact ⟨by norm_num [sampleFrame], q2⟩
  · obtain ⟨h1, -⟩ := runFrames_accumulates floatMath sampleConstants 7 sampleTwelfths
      sampleTargeting rfl rfl rfl hTwT
    have h0 : sampleTargeting.minedAmount = 0 := rfl
    rw [h1, h0, accumulateMining_twelfths]
  · obtain ⟨-, l, h1, h2⟩ := runFrames_accumulates floatMath sampleConstants 7 sampleTwelfths
      sampleTargeting rfl rfl rfl hTwT
    have h0 : sampleTargeting.minedAmount = 0 := rfl
    rw [h0, accumulateMining_twelfths] at h2
    rw [callsSince, h1, List.drop_left, h2]
    rfl

/-- The ten frames of `sampleTenths`, whose times sum to more than 1, record exactly one entry
into `destroyBlock` with additions that round as `float` additions do, in the last frame. -/
theorem runFrames_tenths_float :
    (callsSince sampleTargeting
        (runFrames floatMath sampleConstants sampleTenths sampleTargeting)).filter isDestroy
      = [Call.destroyBlock 7] := by
  have hTen : ∀ f ∈ sampleTenths, f = sampleFrame (13421773 / 134217728) :=
    fun f hf => List.eq_of_mem_replicate hf
  obtain ⟨-, l, h1, h2⟩ := runFrames_accumulates floatMath sampleConstants 7 sampleTenths
    sampleTargeting rfl rfl rfl
    (sample_targetsThroughout floatMath _ _ rfl (fun f hf => ⟨_, hTen f hf⟩))
  have h0 : sampleTargeting.minedAmount = 0 := rfl
  rw [h0, accumulateMining_tenths] at h2
  rw [callsSince, h1, List.drop_left, h2]
  rfl

/-! ## Placing blocks -/

/-- C3. With replace mode off, when the ray cast of `placeBlock` resolves to a block that is
already active, `placeBlock` changes no block (in particular the type and the active flag of the
target stay as they were) and records no call of `flagNeighboursForRecalculateIfNecessary`. -/
theorem placeBlock_occupied_is_noop (M : MathFns) (K : Constants) (s : FirstPersonController)
    (b : BlockPtr) (hReplace : s.replaceBlock = false)
    (hTarget : (castRayForBlock M K (1 / 5) s).1 = some b)
    (hActive : (s.game.blocks b).active = true) :
    ((placeBlock M K s).game.blocks b).type = (s.game.blocks b).type
      ∧ ((placeBlock M K s).game.blocks b).active = (s.game.blocks b).active
      ∧ (placeBlock M K s).game.blocks = s.game.blocks
      ∧ ∀ c ∈ callsSince s (placeBlock M K s), isFlag c = false := by
  obtain ⟨a, b', c, d, l, hs, hl⟩ := castRayForBlock_snd M K (1 / 5) s
  have hOff : (if s.replaceBlock = true then (-(1 / 5) : ℚ) else 1 / 5) = 1 / 5 := by
    simp [hReplace]
  unfold placeBlock
  rw [hOff]
  generalize castRayForBlock M K (1 / 5) s = r at hTarget hs
  obtain ⟨r1, r2⟩ := r
  simp only at hTarget hs
  subst hTarget hs
  simp only [hReplace, hActive, Bool.not_false, Bool.and_self, if_true, callsSince,
    List.drop_left]
  exact ⟨trivial, trivial, trivial, fun e he => (hl e he).2.1⟩

/-- Witness of C3: in the sample world with block 8 active, the placing ray cast of the sample
controller (replace mode off) resolves to block 8. -/
theorem placeBlock_occupied_is_noop_witness :
    sampleOccupied.replaceBlock = false
      ∧ (castRayForBlock sampleMath sampleConstants (1 / 5) sampleOccupied).1 = some 8
      ∧ (sampleOccupied.game.blocks 8).active = true
      ∧ ((placeBlock sampleMath sampleConstants sampleOccupied).game.blocks 8).type = 1
      ∧ (placeBlock sampleMath sampleConstants sampleOccupied).game.blocks
          = sampleOccupied.game.blocks
      ∧ ∀ c ∈ callsSince sampleOccupied (placeBlock sampleMath sampleConstants sampleOccupied),
          isFlag c = false := by
  have hT : (castRayForBlock sampleMath sampleConstants (1 / 5) sampleOccupied).1 = some 8 := by
    norm_num [castRayForBlock, sampleOccupied, sampleController, sampleGame, locationToBlock,
      hitToCell, toInt, Vec3.add, Vec3.scale]
  have hA : (sampleOccupied.game.blocks 8).active = true := by
    simp [sampleOccupied, sampleController, sampleGame]
  have h := placeBlock_occupied_is_noop sampleMath sampleConstants sampleOccupied 8 rfl hT hA
  refine ⟨rfl, hT, hA, ?_, h.2.2.1, h.2.2.2⟩
  rw [h.1]
  simp [sampleOccupied]

/-- C4. With replace mode on, when the ray cast of `placeBlock` resolves to a block that is
already active, `placeBlock` sets the type of that block to the selected type, leaves it active
and where it is, leaves every other block as it was, and records exactly one call of
`flagNeighboursForRecalculateIfNecessary`, whose arguments are the coordinates of the position
of the target block, each cast to `int`. -/
theorem placeBlock_replace_overwrites (M : MathFns) (K : Constants) (s : FirstPersonController)
    (b : BlockPtr) (hReplace : s.replaceBlock = true)
    (hTarget : (castRayForBlock M K (-(1 / 5)) s).1 = some b)
    (hActive : (s.game.blocks b).active = true) :
    ((placeBlock M K s).game.blocks b).type = s.blockSelected
      ∧ ((placeBlock M K s).game.blocks b).active = true
      ∧ ((placeBlock M K s).game.blocks b).active = (s.game.blocks b).active
      ∧ ((placeBlock M K s).game.blocks b).position = (s.game.blocks b).position
      ∧ (∀ q, q ≠ b → (placeBlock M K s).game.blocks q = s.game.blocks q)
      ∧ (callsSince s (placeBlock M K s)).filter isFlag
          = [Call.flagNeighboursForRecalculateIfNecessary
              (toInt (s.game.blocks b).position.x) (toInt (s.game.blocks b).position.y)
              (toInt (s.game.blocks b).position.z)] := by
  obtain ⟨a, b', c, d, l, hs, hl⟩ := castRayForBlock_snd M K (-(1 / 5)) s
  have hfl : l.filter isFlag = [] := by
    rw [List.filter_eq_nil_iff]
    intro e he
    simp [(hl e he).2.1]
  have hOff : (if s.replaceBlock = true then (-(1 / 5) : ℚ) else 1 / 5) = -(1 / 5) := by
    simp [hReplace]
  unfold placeBlock
  rw [hOff]
  generalize castRayForBlock M K (-(1 / 5)) s = r at hTarget hs
  obtain ⟨r1, r2⟩ := r
  simp only at hTarget hs
  subst hTarget hs
  simp only [hReplace, Bool.not_true, Bool.false_and, Bool.false_eq_true, if_false, setBlock,
    flagNeighboursForRecalculateIfNecessary, record, callsSince, List.append_assoc,
    List.drop_left, List.filter_append, hfl, List.nil_append, if_true, hActive]
  refine ⟨trivial, trivial, trivial, trivial, ?_, ?_⟩
  · intro q hq
    simp [hq]
  · simp [isFlag]

/-- Witness of C4: the sample controller with replace mode on aims at block 7, which is active
and of type 0; the selected type is 3. -/
theorem placeBlock_replace_overwrites_witness :
    sampleReplacing.replaceBlock = true
      ∧ (castRayForBlock sampleMath sampleConstants (-(1 / 5)) sampleReplacing).1 = some 7
      ∧ (sampleReplacing.game.blocks 7).active = true
      ∧ ((placeBlock sampleMath sampleConstants sampleReplacing).game.blocks 7).type = 3
      ∧ ((placeBlock sampleMath sampleConstants sampleReplacing).game.blocks 7).active = true
      ∧ (callsSince sampleReplacing
          (placeBlock sampleMath sampleConstants sampleReplacing)).filter isFlag
          = [Call.flagNeighboursForRecalculateIfNecessary 0 7 0] := by
  have hT : (castRayForBlock sampleMath sampleConstants (-(1 / 5)) sampleReplacing).1
      = some 7 := by
    norm_num [castRayForBlock, sampleReplacing, sampleController, sampleGame, locationToBlock,
      hitToCell, toInt, Vec3.add, Vec3.scale]
  have hA : (sampleReplacing.game.blocks 7).active = true := by
    simp [sampleReplacing, sampleController, sampleGame]
  have h := placeBlock_replace_overwrites sampleMath sampleConstants sampleReplacing 7 rfl hT hA
  refine ⟨rfl, hT, hA, h.1, h.2.1, ?_⟩
  rw [h.2.2.2.2.2]
  norm_num [sampleReplacing, sampleController, sampleGame, toInt]

/-! ## Block targeting -/

/-- C5. When the ray of `castRayForBlock` hits, the one call of `locationToBlock` it records has,
on each axis, the coordinate obtained by adding the corner offset `0.501` to the hit point,
raising `y` to at least 0, adding the hit normal times the normal offset, and casting to `int`;
the block returned is the one `locationToBlock` resolves there. In particular the hit point
`(0,7,0.5)` with normal `(0,0,1)` and offset `-0.2` gives the cell `(0,7,0)`. -/
theorem castRayForBlock_cell (M : MathFns) (K : Constants) (normalMultiplier : ℚ)
    (s : FirstPersonController) (res : RayResult)
    (hHit : s.game.raycast (rayStart K s) (rayEnd M K s) = some res) :
    callsSince s (castRayForBlock M K normalMultiplier s).2
        = [Call.locationToBlock
            (toInt (res.m_hitPointWorld.x + 501 / 1000 + res.m_hitNormalWorld.x * normalMultiplier))
            (toInt (max (res.m_hitPointWorld.y + 501 / 1000) 0
              + res.m_hitNormalWorld.y * normalMultiplier))
            (toInt (res.m_hitPointWorld.z + 501 / 1000 + res.m_hitNormalWorld.z * normalMultiplier))
            true]
      ∧ (castRayForBlock M K normalMultiplier s).1
        = s.game.locationToBlock
            (toInt (res.m_hitPointWorld.x + 501 / 1000 + res.m_hitNormalWorld.x * normalMultiplier))
            (toInt (max (res.m_hitPointWorld.y + 501 / 1000) 0
              + res.m_hitNormalWorld.y * normalMultiplier))
            (toInt (res.m_hitPointWorld.z + 501 / 1000 + res.m_hitNormalWorld.z * normalMultiplier))
            true
      ∧ hitToCell ⟨⟨0, 7, 1 / 2⟩, ⟨0, 0, 1⟩⟩ (-(1 / 5)) = (0, 7, 0) := by
  have hy : (if res.m_hitPointWorld.y + 501 / 1000 < 0 then (0 : ℚ)
      else res.m_hitPointWorld.y + 501 / 1000) = max (res.m_hitPointWorld.y + 501 / 1000) 0 := by
    split_ifs with h
    · exact (max_eq_right (le_of_lt h)).symm
    · exact (max_eq_left (not_lt.mp h)).symm
  have hcell : hitToCell res normalMultiplier
      = (toInt (res.m_hitPointWorld.x + 501 / 1000 + res.m_hitNormalWorld.x * normalMultiplier),
         toInt (max (res.m_hitPointWorld.y + 501 / 1000) 0
              + res.m_hitNormalWorld.y * normalMultiplier),
         toInt (res.m_hitPointWorld.z + 501 / 1000
              + res.m_hitNormalWorld.z * normalMultiplier)) := by
    rw [← hy]
    unfold hitToCell
    dsimp only [Vec3.add, Vec3.scale]
    split_ifs <;> rfl
  refine ⟨?_, ?_, ?_⟩
  · unfold castRayForBlock
    simp only [hHit, hcell, locationToBlock, record, callsSince, List.drop_left]
  · unfold castRayForBlock
    simp only [hHit, hcell, locationToBlock]
  · norm_num [hitToCell, toInt, Vec3.add, Vec3.scale]

/-- Witness of C5: the sample controller at `(0,8,0)`, yaw 0 and pitch 0, whose ray hits at
`(0,7,1/2)` with normal `(0,0,1)`; with the mine offset the cell is `(0,7,0)`. -/
theorem castRayForBlock_cell_witness :
    sampleController.game.raycast (rayStart sampleConstants sampleController)
        (rayEnd sampleMath sampleConstants sampleController) = some ⟨⟨0, 7, 1 / 2⟩, ⟨0, 0, 1⟩⟩
      ∧ callsSince sampleController
          (castRayForBlock sampleMath sampleConstants (-(1 / 5)) sampleController).2
        = [Call.locationToBlock 0 7 0 true] := by
  have h := (castRayForBlock_cell sampleMath sampleConstants (-(1 / 5)) sampleController
    ⟨⟨0, 7, 1 / 2⟩, ⟨0, 0, 1⟩⟩ rfl).1
  refine ⟨rfl, ?_⟩
  rw [h]
  norm_num [toInt]

/-! ## Looking around -/

theorem clamp_le_max (x lo hi : ℚ) : clamp x lo hi ≤ hi := min_le_right _ _

theorem le_clamp (x lo hi : ℚ) (h : lo ≤ hi) : lo ≤ clamp x lo hi :=
  le_min (le_max_right _ _) h

/-- What `onMouse` does to the look rotation on a mouse-motion event. -/
theorem onMouse_motion_lookRotation (M : MathFns) (K : Constants) (event : SDL_Event)
    (s : FirstPersonController) (hType : event.type = EventType.SDL_MOUSEMOTION) :
    (onMouse M K event s).lookRotation =
      if s.lockRotation = false then
        ⟨s.lookRotation.x + event.xrel * K.ROTATION_SPEED,
          clamp (s.lookRotation.y + event.yrel * K.ROTATION_SPEED)
            (-K.MAX_X_LOOK_UP_ROTATION) K.MAX_X_LOOK_DOWN_ROTATION⟩
      else s.lookRotation := by
  unfold onMouse
  by_cases h : s.lockRotation = false
  · simp [hType, h]
  · simp [hType, h]

/-- C6, as amended. On a mouse-motion event with rotation not locked, whatever the relative
deltas, the pitch after `onMouse` is the clamped sum, which is at most
`MAX_X_LOOK_DOWN_ROTATION` and, when `-MAX_X_LOOK_UP_ROTATION ≤ MAX_X_LOOK_DOWN_ROTATION`, at
least `-MAX_X_LOOK_UP_ROTATION`, while the yaw is the old yaw plus `xrel * ROTATION_SPEED`, with
no bound. With rotation locked the look rotation is left as it was. -/
theorem onMouse_motion_clamps_pitch (M : MathFns) (K : Constants) (event : SDL_Event)
    (s : FirstPersonController) (hType : event.type = EventType.SDL_MOUSEMOTION) :
    (s.lockRotation = false →
        (onMouse M K event s).lookRotation.x = s.lookRotation.x + event.xrel * K.ROTATION_SPEED
        ∧ (onMouse M K event s).lookRotation.y
            = clamp (s.lookRotation.y + event.yrel * K.ROTATION_SPEED)
                (-K.MAX_X_LOOK_UP_ROTATION) K.MAX_X_LOOK_DOWN_ROTATION
        ∧ (onMouse M K event s).lookRotation.y ≤ K.MAX_X_LOOK_DOWN_ROTATION
        ∧ (-K.MAX_X_LOOK_UP_ROTATION ≤ K.MAX_X_LOOK_DOWN_ROTATION →
            -K.MAX_X_LOOK_UP_ROTATION ≤ (onMouse M K event s).lookRotation.y))
      ∧ (s.lockRotation = true → (onMouse M K event s).lookRotation = s.lookRotation) := by
  rw [onMouse_motion_lookRotation M K event s hType]
  constructor
  · intro h
    rw [if_pos h]
    exact ⟨rfl, rfl, clamp_le_max _ _ _, fun hr => le_clamp _ _ _ hr⟩
  · intro h
    rw [if_neg (by simp [h])]

/-- Witness of C6: a motion event with deltas of a million on the sample controller. -/
theorem onMouse_motion_clamps_pitch_witness :
    (mouseMotion 1000000 1000000).type = EventType.SDL_MOUSEMOTION
      ∧ sampleController.lockRotation = false
      ∧ (onMouse sampleMath sampleConstants (mouseMotion 1000000 1000000)
          sampleController).lookRotation.x = 300000
      ∧ (onMouse sampleMath sampleConstants (mouseMotion 1000000 1000000)
          sampleController).lookRotation.y = 80 := by
  have h := (onMouse_motion_clamps_pitch sampleMath sampleConstants (mouseMotion 1000000 1000000)
    sampleController rfl).1 rfl
  refine ⟨rfl, rfl, ?_, ?_⟩
  · rw [h.1]; norm_num [sampleController, sampleConstants, mouseMotion]
  · rw [h.2.1]; norm_num [sampleController, sampleConstants, mouseMotion, clamp]

/-- Counterexample to C6 as stated: with rotation locked, a motion event with `xrel = 10`
leaves the yaw of the sample controller at 0, which is not the old yaw plus
`xrel * ROTATION_SPEED`. -/
theorem onMouse_motion_counterexample :
    (mouseMotion 10 0).type = EventType.SDL_MOUSEMOTION
      ∧ (onMouse sampleMath sampleConstants (mouseMotion 10 0) sampleLocked).lookRotation.x = 0
      ∧ (onMouse sampleMath sampleConstants (mouseMotion 10 0) sampleLocked).lookRotation.x
          ≠ sampleLocked.lookRotation.x
              + (mouseMotion 10 0).xrel * sampleConstants.ROTATION_SPEED := by
  have h : (onMouse sampleMath sampleConstants (mouseMotion 10 0) sampleLocked).lookRotation
      = sampleLocked.lookRotation := by
    rw [onMouse_motion_lookRotation _ _ _ _ rfl]
    simp [sampleLocked, setLockRotation]
  refine ⟨rfl, ?_, ?_⟩
  · rw [h]; rfl
  · rw [h]
    norm_num [sampleLocked, sampleController, sampleConstants, mouseMotion]

/-! ## Movement -/

/-- The four movement flags sum to zero exactly when opposite keys agree. -/
theorem keyMovement_eq_zero_iff (s : FirstPersonController) :
    keyMovement s = ⟨0, 0, 0⟩ ↔ (s.fwd = s.bwd ∧ s.left = s.right) := by
  unfold keyMovement
  cases s.fwd <;> cases s.bwd <;> cases s.left <;> cases s.right <;>
    norm_num [Vec3.add]

/-- The movement branch when the flags sum to zero: no normalisation, one velocity write with
zero horizontal components. -/
theorem handleMovement_of_zero (M : MathFns) (K : Constants) (deltaTime : ℚ)
    (s : FirstPersonController) (hZero : keyMovement s = ⟨0, 0, 0⟩) :
    ∃ vy, handleMovement M K deltaTime s =
      { s with rigidBody := { s.rigidBody with linearVelocity := ⟨0, vy, 0⟩ },
               calls := s.calls ++ [Call.setLinearVelocity ⟨0, vy, 0⟩] } := by
  unfold handleMovement
  simp only [hZero, ne_eq, not_true_eq_false, if_false, setLinearVelocity, record]
  cases s.isSprinting <;> cases s.isGrounded <;> cases s.flyMode <;> cases s.up <;>
    cases s.down <;> simp [Vec3.scale, Vec3.add]

/-- The movement branch at elapsed time zero: one velocity write with zero horizontal
components, and zero vertical component in fly mode. -/
theorem handleMovement_zero_time (M : MathFns) (K : Constants) (s : FirstPersonController) :
    ∃ vy l, handleMovement M K 0 s =
      { s with rigidBody := { s.rigidBody with linearVelocity := ⟨0, vy, 0⟩ },
               calls := s.calls ++ (l ++ [Call.setLinearVelocity ⟨0, vy, 0⟩]) }
      ∧ (∀ c ∈ l, ∃ v, c = Call.normalize v)
      ∧ (s.flyMode = true → vy = 0) := by
  unfold handleMovement
  by_cases h : keyMovement s = ⟨0, 0, 0⟩
  · simp only [h, ne_eq, not_true_eq_false, if_false, setLinearVelocity, record]
    cases hf : s.flyMode
    · exact ⟨s.rigidBody.linearVelocity.y, [], by simp [Vec3.scale], by simp, by simp⟩
    · exact ⟨0, [], by simp [Vec3.scale], by simp, by simp⟩
  · simp only [h, ne_eq, not_false_eq_true, if_true, setLinearVelocity, record]
    cases hf : s.flyMode
    · exact ⟨s.rigidBody.linearVelocity.y, [Call.normalize (keyMovement s)],
        by simp [Vec3.scale], by simp, by simp⟩
    · exact ⟨0, [Call.normalize (keyMovement s)], by simp [Vec3.scale], by simp, by simp⟩

/-- After the movement branch, `update` records no further movement call and does not touch the
rigid body. -/
theorem update_after_moveStep (M : MathFns) (K : Constants) (deltaTime : ℚ)
    (s : FirstPersonController) :
    (update M K deltaTime s).rigidBody = (moveStep M K deltaTime s).rigidBody
      ∧ ∃ l, callsSince s (update M K deltaTime s) = callsSince s (moveStep M K deltaTime s) ++ l
        ∧ ∀ c ∈ l, isMove c = false := by
  obtain ⟨v, lm, hm, -⟩ := moveStep_eq M K deltaTime s
  obtain ⟨g, t, hc⟩ := cameraStep_eq M K (moveStep M K deltaTime s)
  obtain ⟨-, h2, -, -, -, -, l, h7, h8⟩ :=
    mineStep_keeps M K deltaTime (cameraStep M K (moveStep M K deltaTime s))
  have hcalls : (cameraStep M K (moveStep M K deltaTime s)).calls
      = (moveStep M K deltaTime s).calls := by rw [hc]
  have hbody : (cameraStep M K (moveStep M K deltaTime s)).rigidBody
      = (moveStep M K deltaTime s).rigidBody := by rw [hc]
  have hmc : (moveStep M K deltaTime s).calls = s.calls ++ lm := by rw [hm]
  refine ⟨by unfold update; rw [h2, hbody], l, ?_, h8⟩
  unfold update callsSince
  rw [h7, hcalls, hmc, List.append_assoc, List.drop_left, List.drop_left]

/-- The calls of the movement branch when the flags sum to zero. -/
theorem moveStep_of_zero (M : MathFns) (K : Constants) (deltaTime : ℚ)
    (s : FirstPersonController) (hZero : keyMovement s = ⟨0, 0, 0⟩) :
    ((s.isGrounded = true ∨ K.NEEDS_GROUNDED_TO_MOVE = false) →
        ∃ vy, (moveStep M K deltaTime s).rigidBody.linearVelocity = ⟨0, vy, 0⟩
          ∧ callsSince s (moveStep M K deltaTime s) = [Call.setLinearVelocity ⟨0, vy, 0⟩])
      ∧ ((s.isGrounded = false ∧ K.NEEDS_GROUNDED_TO_MOVE = true) →
        (moveStep M K deltaTime s).rigidBody.linearVelocity = s.rigidBody.linearVelocity
          ∧ callsSince s (moveStep M K deltaTime s) = []) := by
  constructor
  · intro hg
    have hgate : (s.isGrounded || !K.NEEDS_GROUNDED_TO_MOVE) = true := by
      rcases hg with h | h <;> simp [h]
    obtain ⟨vy, h⟩ := handleMovement_of_zero M K deltaTime s hZero
    refine ⟨vy, ?_, ?_⟩
    · unfold moveStep; rw [if_pos hgate, h]
    · unfold moveStep callsSince; rw [if_pos hgate, h]; exact List.drop_left _ _
  · rintro ⟨h1, h2⟩
    have hgate : ¬ (s.isGrounded || !K.NEEDS_GROUNDED_TO_MOVE) = true := by simp [h1, h2]
    unfold moveStep callsSince
    rw [if_neg hgate]
    exact ⟨rfl, List.drop_length _⟩

/-- C7, as amended. When the movement flags sum to the zero vector, for every frame time, look
rotation, sprint and fly state: `update` records no call of `glm::normalize`, and every velocity
it writes to the rigid body has `x = 0` and `z = 0`. When movement is handled (`isGrounded` is
set, or `NEEDS_GROUNDED_TO_MOVE` is off) the velocity is written, so that the horizontal velocity
of the body is zero after `update`; when movement is not handled (`isGrounded` is not set and
`NEEDS_GROUNDED_TO_MOVE` is on) `update` writes no velocity and the velocity of the body is the
one from before. -/
theorem update_zero_movement (M : MathFns) (K : Constants) (deltaTime : ℚ)
    (s : FirstPersonController) (hZero : keyMovement s = ⟨0, 0, 0⟩) :
    (∀ v, Call.normalize v ∉ callsSince s (update M K deltaTime s))
      ∧ (∀ v, Call.setLinearVelocity v ∈ callsSince s (update M K deltaTime s) →
          v.x = 0 ∧ v.z = 0)
      ∧ ((s.isGrounded = true ∨ K.NEEDS_GROUNDED_TO_MOVE = false) →
          Call.setLinearVelocity (update M K deltaTime s).rigidBody.linearVelocity
              ∈ callsSince s (update M K deltaTime s)
            ∧ (update M K deltaTime s).rigidBody.linearVelocity.x = 0
            ∧ (update M K deltaTime s).rigidBody.linearVelocity.z = 0)
      ∧ ((s.isGrounded = false ∧ K.NEEDS_GROUNDED_TO_MOVE = true) →
          (∀ v, Call.setLinearVelocity v ∉ callsSince s (update M K deltaTime s))
            ∧ (update M K deltaTime s).rigidBody.linearVelocity
                = s.rigidBody.linearVelocity) := by
  obtain ⟨hb, l, hc, hl⟩ := update_after_moveStep M K deltaTime s
  obtain ⟨hOpen, hShut⟩ := moveStep_of_zero M K deltaTime s hZero
  have hgate : (s.isGrounded = true ∨ K.NEEDS_GROUNDED_TO_MOVE = false)
      ∨ (s.isGrounded = false ∧ K.NEEDS_GROUNDED_TO_MOVE = true) := by
    cases s.isGrounded <;> cases K.NEEDS_GROUNDED_TO_MOVE <;> simp
  have hnl : ∀ c ∈ l, ∀ v, c ≠ Call.normalize v ∧ c ≠ Call.setLinearVelocity v := by
    intro c hcl v
    have := hl c hcl
    constructor <;> rintro rfl <;> simp [isMove] at this
  rw [hc, hb]
  refine ⟨?_, ?_, ?_, ?_⟩
  · intro v hv
    rcases List.mem_append.mp hv with h | h
    · rcases hgate with hg | hg
      · obtain ⟨vy, -, h2⟩ := hOpen hg
        rw [h2] at h
        simp at h
      · rw [(hShut hg).2] at h
        simp at h
    · exact (hnl _ h v).1 rfl
  · intro v hv
    rcases List.mem_append.mp hv with h | h
    · rcases hgate with hg | hg
      · obtain ⟨vy, -, h2⟩ := hOpen hg
        rw [h2] at h
        simp only [List.mem_singleton, Call.setLinearVelocity.injEq] at h
        subst h
        exact ⟨rfl, rfl⟩
      · rw [(hShut hg).2] at h
        simp at h
    · exact absurd rfl (hnl _ h v).2
  · intro hg
    obtain ⟨vy, h1, h2⟩ := hOpen hg
    rw [h1, h2]
    exact ⟨by simp, rfl, rfl⟩
  · intro hg
    refine ⟨?_, (hShut hg).1⟩
    intro v hv
    rw [(hShut hg).2] at hv
    exact absurd rfl (hnl _ (by simpa using hv) v).2

/-- Witness of C7: forward and backward held together on the sample controller, which moves
at `(3, 0, 4)` before the call. -/
theorem update_zero_movement_witness :
    keyMovement sampleOpposing = ⟨0, 0, 0⟩
      ∧ sampleOpposing.rigidBody.linearVelocity = ⟨3, 0, 4⟩
      ∧ (∀ v, Call.normalize v
          ∉ callsSince sampleOpposing (update sampleMath sampleConstants (1 / 60) sampleOpposing))
      ∧ (update sampleMath sampleConstants (1 / 60) sampleOpposing).rigidBody.linearVelocity.x = 0
      ∧ (update sampleMath sampleConstants (1 / 60) sampleOpposing).rigidBody.linearVelocity.z
          = 0 := by
  have hZ : keyMovement sampleOpposing = ⟨0, 0, 0⟩ :=
    (keyMovement_eq_zero_iff sampleOpposing).mpr ⟨rfl, rfl⟩
  have h := update_zero_movement sampleMath sampleConstants (1 / 60) sampleOpposing hZ
  exact ⟨hZ, rfl, h.1, (h.2.2.1 (Or.inl rfl)).2.1, (h.2.2.1 (Or.inl rfl)).2.2⟩

/-- Counterexample to C7 as stated: with `NEEDS_GROUNDED_TO_MOVE` on, the controller in the air
and no key held (the flags sum to zero), `update` writes no velocity: the body keeps its previous
horizontal velocity `x = 3`, `z = 4`. -/
theorem update_zero_movement_counterexample :
    keyMovement sampleAirborne = ⟨0, 0, 0⟩
      ∧ sampleAirborne.isGrounded = false ∧ gatedConstants.NEEDS_GROUNDED_TO_MOVE = true
      ∧ (update sampleMath gatedConstants (1 / 60) sampleAirborne).rigidBody.linearVelocity
          = ⟨3, 0, 4⟩
      ∧ (update sampleMath gatedConstants (1 / 60) sampleAirborne).rigidBody.linearVelocity.x ≠ 0
      ∧ ∀ v, Call.setLinearVelocity v
          ∉ callsSince sampleAirborne
              (update sampleMath gatedConstants (1 / 60) sampleAirborne) := by
  have hZ : keyMovement sampleAirborne = ⟨0, 0, 0⟩ :=
    (keyMovement_eq_zero_iff sampleAirborne).mpr ⟨rfl, rfl⟩
  obtain ⟨hb, l, hc, hl⟩ := update_after_moveStep sampleMath gatedConstants (1 / 60) sampleAirborne
  obtain ⟨h1, h2⟩ := (moveStep_of_zero sampleMath gatedConstants (1 / 60) sampleAirborne hZ).2
    ⟨rfl, rfl⟩
  have hv : (update sampleMath gatedConstants (1 / 60) sampleAirborne).rigidBody.linearVelocity
      = ⟨3, 0, 4⟩ := by
    rw [hb, h1]; rfl
  refine ⟨hZ, rfl, rfl, hv, ?_, ?_⟩
  · rw [hv]; norm_num
  · intro v hmem
    rw [hc, h2, List.nil_append] at hmem
    have := hl _ hmem
    simp [isMove] at this

/-- The calls of the movement branch at elapsed time zero. -/
theorem moveStep_zero_time (M : MathFns) (K : Constants) (s : FirstPersonController) :
    ((s.isGrounded = true ∨ K.NEEDS_GROUNDED_TO_MOVE = false) →
        ∃ vy l, (moveStep M K 0 s).rigidBody.linearVelocity = ⟨0, vy, 0⟩
          ∧ callsSince s (moveStep M K 0 s) = l ++ [Call.setLinearVelocity ⟨0, vy, 0⟩]
          ∧ (∀ c ∈ l, ∃ v, c = Call.normalize v)
          ∧ (s.flyMode = true → vy = 0))
      ∧ ((s.isGrounded = false ∧ K.NEEDS_GROUNDED_TO_MOVE = true) →
        (moveStep M K 0 s).rigidBody.linearVelocity = s.rigidBody.linearVelocity
          ∧ callsSince s (moveStep M K 0 s) = []) := by
  constructor
  · intro hg
    have hgate : (s.isGrounded || !K.NEEDS_GROUNDED_TO_MOVE) = true := by
      rcases hg with h | h <;> simp [h]
    obtain ⟨vy, l, h, hl, hf⟩ := handleMovement_zero_time M K s
    refine ⟨vy, l, ?_, ?_, hl, hf⟩
    · unfold moveStep; rw [if_pos hgate, h]
    · unfold moveStep callsSince; rw [if_pos hgate, h]; exact List.drop_left _ _
  · rintro ⟨h1, h2⟩
    have hgate : ¬ (s.isGrounded || !K.NEEDS_GROUNDED_TO_MOVE) = true := by simp [h1, h2]
    unfold moveStep callsSince
    rw [if_neg hgate]
    exact ⟨rfl, List.drop_length _⟩

/-- C8, as amended. For every controller state, `update` with elapsed time 0 leaves yaw and
pitch as they were, does not move the rigid body (neither origin changes), and every velocity it
writes has `x = 0` and `z = 0` (and `y = 0` in fly mode). When movement is handled (`isGrounded`
is set, or `NEEDS_GROUNDED_TO_MOVE` is off) the velocity is written, so that the horizontal
velocity of the body is zero after `update`; when movement is not handled (`isGrounded` is not
set and `NEEDS_GROUNDED_TO_MOVE` is on) `update` writes no velocity and the velocity of the body
is the one from before. -/
theorem update_zero_time (M : MathFns) (K : Constants) (s : FirstPersonController) :
    (update M K 0 s).lookRotation = s.lookRotation
      ∧ (update M K 0 s).rigidBody.worldOrigin = s.rigidBody.worldOrigin
      ∧ (update M K 0 s).rigidBody.motionStateOrigin = s.rigidBody.motionStateOrigin
      ∧ (∀ v, Call.setLinearVelocity v ∈ callsSince s (update M K 0 s) →
          v.x = 0 ∧ v.z = 0 ∧ (s.flyMode = true → v.y = 0))
      ∧ ((s.isGrounded = true ∨ K.NEEDS_GROUNDED_TO_MOVE = false) →
          Call.setLinearVelocity (update M K 0 s).rigidBody.linearVelocity
              ∈ callsSince s (update M K 0 s)
            ∧ (update M K 0 s).rigidBody.linearVelocity.x = 0
            ∧ (update M K 0 s).rigidBody.linearVelocity.z = 0)
      ∧ ((s.isGrounded = false ∧ K.NEEDS_GROUNDED_TO_MOVE = true) →
          (∀ v, Call.setLinearVelocity v ∉ callsSince s (update M K 0 s))
            ∧ (update M K 0 s).rigidBody.linearVelocity = s.rigidBody.linearVelocity) := by
  obtain ⟨k1, k2, k3, -, -, -, -⟩ := update_keeps M K 0 s
  obtain ⟨hb, l, hc, hl⟩ := update_after_moveStep M K 0 s
  obtain ⟨hOpen, hShut⟩ := moveStep_zero_time M K s
  have hgate : (s.isGrounded = true ∨ K.NEEDS_GROUNDED_TO_MOVE = false)
      ∨ (s.isGrounded = false ∧ K.NEEDS_GROUNDED_TO_MOVE = true) := by
    cases s.isGrounded <;> cases K.NEEDS_GROUNDED_TO_MOVE <;> simp
  have hnl : ∀ c ∈ l, ∀ v, c ≠ Call.setLinearVelocity v := by
    intro c hcl v
    have := hl c hcl
    rintro rfl
    simp [isMove] at this
  refine ⟨k1, k2, k3, ?_, ?_, ?_⟩
  · intro v hv
    rw [hc] at hv
    rcases List.mem_append.mp hv with h | h
    · rcases hgate with hg | hg
      · obtain ⟨vy, lm, -, h2, h3, h4⟩ := hOpen hg
        rw [h2] at h
        rcases List.mem_append.mp h with h | h
        · obtain ⟨w, hw⟩ := h3 _ h
          cases hw
        · simp only [List.mem_singleton, Call.setLinearVelocity.injEq] at h
          subst h
          exact ⟨rfl, rfl, h4⟩
      · rw [(hShut hg).2] at h
        simp at h
    · exact absurd rfl (hnl _ h v)
  · intro hg
    obtain ⟨vy, lm, h1, h2, -, -⟩ := hOpen hg
    rw [hc, hb, h1, h2]
    exact ⟨by simp, rfl, rfl⟩
  · intro hg
    refine ⟨?_, by rw [hb]; exact (hShut hg).1⟩
    intro v hv
    rw [hc, (hShut hg).2] at hv
    exact absurd rfl (hnl _ (by simpa using hv) v)

/-- Witness of C8: the forward key held on the sample controller, which is grounded and moves at
`(3, 0, 4)`; after `update` with elapsed time 0 its horizontal velocity is zero. -/
theorem update_zero_time_witness :
    sampleForward.isGrounded = true
      ∧ sampleForward.rigidBody.linearVelocity = ⟨3, 0, 4⟩
      ∧ (update sampleMath sampleConstants 0 sampleForward).lookRotation
          = sampleForward.lookRotation
      ∧ (update sampleMath sampleConstants 0 sampleForward).rigidBody.linearVelocity.x = 0
      ∧ (update sampleMath sampleConstants 0 sampleForward).rigidBody.linearVelocity.z = 0 := by
  have h := update_zero_time sampleMath sampleConstants sampleForward
  exact ⟨rfl, rfl, h.1, (h.2.2.2.2.1 (Or.inl rfl)).2.1, (h.2.2.2.2.1 (Or.inl rfl)).2.2⟩

/-- Counterexample to C8 as stated: with `NEEDS_GROUNDED_TO_MOVE` on and the controller in the
air, `update` with elapsed time 0 writes no velocity: the body keeps its horizontal velocity
`x = 3`, `z = 4`. -/
theorem update_zero_time_counterexample :
    sampleAirborne.isGrounded = false ∧ gatedConstants.NEEDS_GROUNDED_TO_MOVE = true
      ∧ (update sampleMath gatedConstants 0 sampleAirborne).rigidBody.linearVelocity = ⟨3, 0, 4⟩
      ∧ (update sampleMath gatedConstants 0 sampleAirborne).rigidBody.linearVelocity.x ≠ 0
      ∧ ∀ v, Call.setLinearVelocity v
          ∉ callsSince sampleAirborne (update sampleMath gatedConstants 0 sampleAirborne) := by
  obtain ⟨hb, l, hc, hl⟩ := update_after_moveStep sampleMath gatedConstants 0 sampleAirborne
  obtain ⟨h1, h2⟩ := (moveStep_zero_time sampleMath gatedConstants sampleAirborne).2 ⟨rfl, rfl⟩
  have hv : (update sampleMath gatedConstants 0 sampleAirborne).rigidBody.linearVelocity
      = ⟨3, 0, 4⟩ := by
    rw [hb, h1]; rfl
  refine ⟨rfl, rfl, hv, ?_, ?_⟩
  · rw [hv]; norm_num
  · intro v hmem
    rw [hc, h2, List.nil_append] at hmem
    have := hl _ hmem
    simp [isMove] at this

/-! ## Keys -/

/-- C9. On the release of the Y key `onKey` flips `flyMode`, sets the gravity of the rigid body
to the zero vector when fly mode becomes enabled and to `(0,-10,0)` when it becomes disabled, and
changes nothing else: every other member, the rest of the rigid body, the camera, the world and
the recorded calls are as before. -/
theorem onKey_fly_toggle (K : Constants) (event : SDL_Event) (s : FirstPersonController)
    (hType : event.type = EventType.SDL_KEYUP) (hSym : event.sym = Keycode.SDLK_y) :
    (onKey K event s).flyMode = !s.flyMode
      ∧ (s.flyMode = false → (onKey K event s).rigidBody.gravity = ⟨0, 0, 0⟩)
      ∧ (s.flyMode = true → (onKey K event s).rigidBody.gravity = ⟨0, -10, 0⟩)
      ∧ onKey K event s =
          { s with
            flyMode := !s.flyMode
            rigidBody := { s.rigidBody with
              gravity := if s.flyMode = true then ⟨0, -10, 0⟩ else ⟨0, 0, 0⟩ } } := by
  have h : onKey K event s =
      { s with
        flyMode := !s.flyMode
        rigidBody := { s.rigidBody with
          gravity := if s.flyMode = true then ⟨0, -10, 0⟩ else ⟨0, 0, 0⟩ } } := by
    unfold onKey
    cases hf : s.flyMode <;> simp [hType, hSym, hf, setGravity]
  rw [h]
  refine ⟨rfl, ?_, ?_, rfl⟩
  · intro hf; simp [hf]
  · intro hf; simp [hf]

/-- Witness of C9: the Y key released on the sample controller, which is not flying and has
gravity `(0,-10,0)`; released once more, the gravity is back. -/
theorem onKey_fly_toggle_witness :
    (keyUp Keycode.SDLK_y).type = EventType.SDL_KEYUP
      ∧ (keyUp Keycode.SDLK_y).sym = Keycode.SDLK_y
      ∧ sampleController.flyMode = false
      ∧ (onKey sampleConstants (keyUp Keycode.SDLK_y) sampleController).flyMode = true
      ∧ (onKey sampleConstants (keyUp Keycode.SDLK_y) sampleController).rigidBody.gravity
          = ⟨0, 0, 0⟩
      ∧ (onKey sampleConstants (keyUp Keycode.SDLK_y)
          (onKey sampleConstants (keyUp Keycode.SDLK_y) sampleController)).rigidBody.gravity
          = ⟨0, -10, 0⟩ := by
  have h1 := onKey_fly_toggle sampleConstants (keyUp Keycode.SDLK_y) sampleController rfl rfl
  have h2 := onKey_fly_toggle sampleConstants (keyUp Keycode.SDLK_y)
    (onKey sampleConstants (keyUp Keycode.SDLK_y) sampleController) rfl rfl
  exact ⟨rfl, rfl, rfl, h1.1, h1.2.1 rfl, h2.2.2.1 h1.1⟩

/-! ## Ground check -/

end FirstPersonController

/-- The test on squares is the test on the Euclidean distance: the real square root of the
squared length of the difference exceeds the bound. -/
theorem distanceExceeds_iff (a b : Vec3) (bound : ℚ) :
    distanceExceeds a b bound = true ↔
      (bound : ℝ) < Real.sqrt (((b.sub a).dot (b.sub a) : ℚ) : ℝ) := by
  unfold distanceExceeds
  have h1 : bound < 0 ↔ (bound : ℝ) < 0 := by exact_mod_cast Iff.rfl
  have h2 : bound * bound < (b.sub a).dot (b.sub a)
      ↔ (bound : ℝ) ^ 2 < (((b.sub a).dot (b.sub a) : ℚ) : ℝ) := by
    rw [sq]; exact_mod_cast Iff.rfl
  rw [decide_eq_true_iff, h1, h2]
  constructor
  · intro h
    apply lt_of_not_le
    rw [Real.sqrt_le_iff]
    rintro ⟨k1, k2⟩
    rcases h with h | h
    · exact absurd k1 (not_le.mpr h)
    · exact absurd k2 (not_le.mpr h)
  · intro h
    by_contra hc
    rw [not_or, not_lt, not_lt] at hc
    exact absurd (Real.sqrt_le_iff.mpr hc) (not_le.mpr h)

namespace FirstPersonController

/-- C10. For every body position: when the downward ray hits nothing `checkGrounded` sets
`isGrounded` to false; when it hits, `isGrounded` becomes true exactly when the Euclidean
distance from the position to the hit point, the real square root of the sum of the squared
coordinate differences, does not exceed `COLLIDER_RADIUS + 0.5 * COLLIDER_HEIGHT + 0.1`.
Nothing but `isGrounded` is changed. -/
theorem checkGrounded_iff (K : Constants) (position : Vec3)
    (s : FirstPersonController) :
    (s.game.raycast position (position.add ⟨0, -100000, 0⟩) = none →
        (checkGrounded K position s).isGrounded = false)
      ∧ (∀ res, s.game.raycast position (position.add ⟨0, -100000, 0⟩) = some res →
          ((checkGrounded K position s).isGrounded = true ↔
            Real.sqrt ((((res.m_hitPointWorld.x - position.x) ^ 2
                + (res.m_hitPointWorld.y - position.y) ^ 2
                + (res.m_hitPointWorld.z - position.z) ^ 2 : ℚ)) : ℝ)
              ≤ ((K.COLLIDER_RADIUS + 1 / 2 * K.COLLIDER_HEIGHT + 1 / 10 : ℚ) : ℝ)))
      ∧ checkGrounded K position s
          = { s with isGrounded := (checkGrounded K position s).isGrounded } := by
  refine ⟨?_, ?_, ?_⟩
  · intro h
    unfold checkGrounded
    simp only [h]
  · intro res h
    have hd : (res.m_hitPointWorld.sub position).dot (res.m_hitPointWorld.sub position)
        = (res.m_hitPointWorld.x - position.x) ^ 2 + (res.m_hitPointWorld.y - position.y) ^ 2
          + (res.m_hitPointWorld.z - position.z) ^ 2 := by
      unfold Vec3.dot Vec3.sub
      ring
    have hg : (checkGrounded K position s).isGrounded
        = !(distanceExceeds position res.m_hitPointWorld
            (K.COLLIDER_RADIUS + 1 / 2 * K.COLLIDER_HEIGHT + 1 / 10)) := by
      unfold checkGrounded
      simp only [h]
    rw [hg, Bool.not_eq_true', ← Bool.not_eq_true, distanceExceeds_iff, not_lt, hd]
  · unfold checkGrounded
    dsimp only
    split <;> rfl

/-- Witness of C10, with `COLLIDER_RADIUS + 0.5 * COLLIDER_HEIGHT + 0.1 = 0.8`: from `(0,8,0)`
a hit at `(0,7.3,0)`, at distance 0.7, gives grounded; the hit at `(0,7,1/2)` of the sample world,
at squared distance 1.25, gives not grounded; no hit gives not grounded. -/
theorem checkGrounded_iff_witness :
    (checkGrounded sampleConstants ⟨0, 8, 0⟩ sampleStanding).isGrounded = true
      ∧ (checkGrounded sampleConstants ⟨0, 8, 0⟩ sampleController).isGrounded = false
      ∧ (checkGrounded sampleConstants ⟨0, 8, 0⟩ sampleMiss).isGrounded = false := by
  have h1 := (checkGrounded_iff sampleConstants ⟨0, 8, 0⟩ sampleStanding).2.1
    ⟨⟨0, 73 / 10, 0⟩, ⟨0, 1, 0⟩⟩ rfl
  have h2 := (checkGrounded_iff sampleConstants ⟨0, 8, 0⟩ sampleController).2.1
    ⟨⟨0, 7, 1 / 2⟩, ⟨0, 0, 1⟩⟩ rfl
  have h3 := (checkGrounded_iff sampleConstants ⟨0, 8, 0⟩ sampleMiss).1 rfl
  refine ⟨h1.mpr ?_, ?_, h3⟩
  · rw [Real.sqrt_le_iff]
    constructor
    · norm_num [sampleConstants]
    · norm_num [sampleConstants]
  · rw [← Bool.not_eq_true, h2, Real.sqrt_le_iff]
    norm_num [sampleConstants]

/-! ## No target -/

/-- The mining step when the ray cast returns no block. -/
theorem mineStep_none (M : MathFns) (K : Constants) (deltaTime : ℚ)
    (u : FirstPersonController) (hNone : (castRayForBlock M K (-(1 / 5)) u).1 = none) :
    (mineStep M K deltaTime u).game = u.game
      ∧ (u.isMining = true →
          (mineStep M K deltaTime u).minedAmount = 0 ∧ (mineStep M K deltaTime u).lastBlock = none)
      ∧ ∃ l, (mineStep M K deltaTime u).calls = u.calls ++ l
        ∧ ∀ c ∈ l, isDestroy c = false ∧ isFlag c = false := by
  obtain ⟨a, b', c, d, l2, hs, hl2⟩ := castRayForBlock_snd M K (-(1 / 5)) u
  unfold mineStep
  generalize castRayForBlock M K (-(1 / 5)) u = r at hNone hs
  obtain ⟨r1, r2⟩ := r
  simp only at hNone hs
  subst hNone hs
  by_cases hM : u.isMining = true
  · simp only [hM, if_true, ne_eq, not_true_eq_false, false_and, if_false]
    exact ⟨by trivial, fun _ => ⟨by trivial, by trivial⟩, l2, by trivial,
      fun e he => ⟨(hl2 e he).1, (hl2 e he).2.1⟩⟩
  · rw [if_neg hM]
    exact ⟨rfl, fun h => absurd h hM, [], by simp, by simp⟩

/-- C11. When `castRayForBlock` returns the absent value, nothing happens to the world, for every
controller state (instant mining on or off, any previous target). For `placeBlock`: no block is
changed and no call of `flagNeighboursForRecalculateIfNecessary` or entry into `destroyBlock` is
recorded. For `update`: no block is changed, no entry into `destroyBlock` and no call of
`flagNeighboursForRecalculateIfNecessary` is recorded, and with mining input held the mined
amount is reset to zero and `lastBlock` becomes null. -/
theorem absent_target_is_silent (M : MathFns) (K : Constants) (deltaTime : ℚ)
    (s : FirstPersonController) :
    ((castRayForBlock M K (if s.replaceBlock = true then -(1 / 5) else 1 / 5) s).1 = none →
        (placeBlock M K s).game.blocks = s.game.blocks
          ∧ ∀ c ∈ callsSince s (placeBlock M K s), isFlag c = false ∧ isDestroy c = false)
      ∧ ((castRayForBlock M K (-(1 / 5)) s).1 = none →
        (update M K deltaTime s).game.blocks = s.game.blocks
          ∧ (∀ c ∈ callsSince s (update M K deltaTime s), isDestroy c = false ∧ isFlag c = false)
          ∧ (s.isMining = true →
              (update M K deltaTime s).minedAmount = 0
                ∧ (update M K deltaTime s).lastBlock = none)) := by
  constructor
  · intro hNone
    obtain ⟨a, b', c, d, l, hs, hl⟩ := castRayForBlock_snd M K
      (if s.replaceBlock = true then -(1 / 5) else 1 / 5) s
    unfold placeBlock
    generalize castRayForBlock M K (if s.replaceBlock = true then -(1 / 5) else 1 / 5) s = r
      at hNone hs
    obtain ⟨r1, r2⟩ := r
    simp only at hNone hs
    subst hNone hs
    simp only [callsSince, List.drop_left]
    exact ⟨by trivial, fun e he => ⟨(hl e he).2.1, (hl e he).1⟩⟩
  · intro hNone
    obtain ⟨h1, -, -, -, h5, l1, h6, h7⟩ := preMine_fields M K deltaTime s
    have hr := castRayForBlock_update M K (-(1 / 5)) deltaTime s
    obtain ⟨g1, g2, l, g3, g4⟩ := mineStep_none M K deltaTime
      (cameraStep M K (moveStep M K deltaTime s)) (hr.trans hNone)
    refine ⟨?_, ?_, ?_⟩
    · unfold update; rw [g1, h5]
    · intro e he
      have hcalls : (update M K deltaTime s).calls = s.calls ++ (l1 ++ l) := by
        unfold update; rw [g3, h6, List.append_assoc]
      rw [callsSince, hcalls, List.drop_left] at he
      rcases List.mem_append.mp he with h | h
      · exact h7 e h
      · exact g4 e h
    · intro hM
      exact g2 (h1.trans hM)

/-- Witness of C11: the sample world without any hit, instant mining on, `lastBlock` null, with
the left button held; both `placeBlock` and `update` leave the blocks alone. -/
theorem absent_target_is_silent_witness :
    sampleMiss.instantMining = true ∧ sampleMiss.lastBlock = none ∧ sampleMiss.isMining = true
      ∧ (castRayForBlock sampleMath sampleConstants (-(1 / 5)) sampleMiss).1 = none
      ∧ (placeBlock sampleMath sampleConstants sampleMiss).game.blocks = sampleMiss.game.blocks
      ∧ (update sampleMath sampleConstants 1 sampleMiss).game.blocks = sampleMiss.game.blocks
      ∧ (∀ c ∈ callsSince sampleMiss (update sampleMath sampleConstants 1 sampleMiss),
          isDestroy c = false ∧ isFlag c = false)
      ∧ (update sampleMath sampleConstants 1 sampleMiss).minedAmount = 0 := by
  have h := absent_target_is_silent sampleMath sampleConstants 1 sampleMiss
  have hP : (castRayForBlock sampleMath sampleConstants
      (if sampleMiss.replaceBlock = true then -(1 / 5) else 1 / 5) sampleMiss).1 = none := rfl
  have hU : (castRayForBlock sampleMath sampleConstants (-(1 / 5)) sampleMiss).1 = none := rfl
  exact ⟨rfl, rfl, rfl, hU, (h.1 hP).1, (h.2 hU).1, (h.2 hU).2.1, ((h.2 hU).2.2 rfl).1⟩

/-! ## Instant mining -/

/-- The mining step with instant mining on, on the same target as in the frame before. -/
theorem mineStep_instant (M : MathFns) (K : Constants) (deltaTime : ℚ)
    (u : FirstPersonController) (b : BlockPtr) (hMining : u.isMining = true)
    (hInstant : u.instantMining = true)
    (hTarget : (castRayForBlock M K (-(1 / 5)) u).1 = some b) (hLast : u.lastBlock = some b) :
    (mineStep M K deltaTime u).minedAmount = 0
      ∧ ((mineStep M K deltaTime u).game.blocks b).active = false
      ∧ ∃ l, (mineStep M K deltaTime u).calls = u.calls ++ l
        ∧ l.filter isDestroy = [Call.destroyBlock b] := by
  obtain ⟨a, b', c, d, l2, hs, hl2⟩ := castRayForBlock_snd M K (-(1 / 5)) u
  have hfl : l2.filter isDestroy = [] := by
    rw [List.filter_eq_nil_iff]
    intro e he
    simp [(hl2 e he).1]
  unfold mineStep
  generalize castRayForBlock M K (-(1 / 5)) u = r at hTarget hs
  obtain ⟨r1, r2⟩ := r
  simp only at hTarget hs
  subst hTarget hs
  simp only [hMining, hLast, hInstant, destroyBlock_eq]
  simp [hfl, isDestroy, isFlag]

/-- The mining step on another target than in the frame before leaves the world alone. -/
theorem mineStep_other_target_game (M : MathFns) (K : Constants) (deltaTime : ℚ)
    (u : FirstPersonController) (hMining : u.isMining = true)
    (hTarget : (castRayForBlock M K (-(1 / 5)) u).1 = none
      ∨ (castRayForBlock M K (-(1 / 5)) u).1 ≠ u.lastBlock) :
    (mineStep M K deltaTime u).game = u.game := by
  obtain ⟨a, b', c, d, l2, hs, -⟩ := castRayForBlock_snd M K (-(1 / 5)) u
  have hcond : ¬ ((castRayForBlock M K (-(1 / 5)) u).1 ≠ none
      ∧ (castRayForBlock M K (-(1 / 5)) u).1 = u.lastBlock) := by
    rintro ⟨h1, h2⟩
    rcases hTarget with h | h
    · exact h1 h
    · exact h h2
  unfold mineStep
  generalize castRayForBlock M K (-(1 / 5)) u = r at hcond hs
  obtain ⟨r1, r2⟩ := r
  simp only at hcond hs
  subst hs
  simp only [hMining, if_true, hcond, if_false]

/-- C12, as amended. With instant mining on and mining input held, for every frame time and
every accumulated mining time: when the ray cast of `update` hits the block that is stored in
`lastBlock` (the target of the frame before), that block is destroyed in that frame (one entry
into `destroyBlock`, the block is not active afterwards, the mined amount is zero); when it hits
a block that is not stored in `lastBlock`, nothing is destroyed in that frame, the world is left
alone and the block becomes `lastBlock`. -/
theorem update_instant_mining (M : MathFns) (K : Constants) (deltaTime : ℚ)
    (s : FirstPersonController) (b : BlockPtr) (hMining : s.isMining = true)
    (hInstant : s.instantMining = true)
    (hTarget : (castRayForBlock M K (-(1 / 5)) s).1 = some b) :
    (s.lastBlock = some b →
        (callsSince s (update M K deltaTime s)).filter isDestroy = [Call.destroyBlock b]
          ∧ ((update M K deltaTime s).game.blocks b).active = false
          ∧ (update M K deltaTime s).minedAmount = 0)
      ∧ (s.lastBlock ≠ some b →
        (callsSince s (update M K deltaTime s)).filter isDestroy = []
          ∧ (update M K deltaTime s).game = s.game
          ∧ (update M K deltaTime s).lastBlock = some b) := by
  obtain ⟨h1, h2, -, h4, h5, l1, h6, h7⟩ := preMine_fields M K deltaTime s
  have hr := castRayForBlock_update M K (-(1 / 5)) deltaTime s
  have hfl : l1.filter isDestroy = [] := by
    rw [List.filter_eq_nil_iff]
    intro e he
    simp [(h7 e he).1]
  constructor
  · intro hLast
    obtain ⟨g1, g2, l, g3, g4⟩ := mineStep_instant M K deltaTime
      (cameraStep M K (moveStep M K deltaTime s)) b (h1.trans hMining) (h2.trans hInstant)
      (hr.trans hTarget) (h4.trans hLast)
    have hcalls : (update M K deltaTime s).calls = s.calls ++ (l1 ++ l) := by
      unfold update; rw [g3, h6, List.append_assoc]
    refine ⟨?_, g2, g1⟩
    rw [callsSince, hcalls, List.drop_left, List.filter_append, hfl, g4]
    rfl
  · intro hLast
    have hOther : (castRayForBlock M K (-(1 / 5)) s).1 = none
        ∨ (castRayForBlock M K (-(1 / 5)) s).1 ≠ s.lastBlock := by
      right
      rw [hTarget]
      exact fun h => hLast h.symm
    obtain ⟨-, k2, l, k3, k4⟩ := update_other_target M K deltaTime s hMining hOther
    have hgame := mineStep_other_target_game M K deltaTime
      (cameraStep M K (moveStep M K deltaTime s)) (h1.trans hMining) (by rw [hr, h4]; exact hOther)
    refine ⟨?_, ?_, k2.trans hTarget⟩
    · rw [callsSince, k3, List.drop_left, List.filter_eq_nil_iff]
      intro e he
      simp [(k4 e he).1]
    · unfold update; rw [hgame, h5]

/-- Witness of C12: with block 7 already the target, instant mining destroys it in a frame of
1/60 time unit, far below the threshold. -/
theorem update_instant_mining_witness :
    sampleInstantTargeting.isMining = true ∧ sampleInstantTargeting.instantMining = true
      ∧ (castRayForBlock sampleMath sampleConstants (-(1 / 5)) sampleInstantTargeting).1 = some 7
      ∧ sampleInstantTargeting.lastBlock = some 7
      ∧ (callsSince sampleInstantTargeting
          (update sampleMath sampleConstants (1 / 60) sampleInstantTargeting)).filter isDestroy
          = [Call.destroyBlock 7]
      ∧ ((update sampleMath sampleConstants (1 / 60) sampleInstantTargeting).game.blocks 7).active
          = false := by
  have hT : (castRayForBlock sampleMath sampleConstants (-(1 / 5)) sampleInstantTargeting).1
      = some 7 := sample_castRay_mine
  have h := (update_instant_mining sampleMath sampleConstants (1 / 60) sampleInstantTargeting 7
    rfl rfl hT).1 rfl
  exact ⟨rfl, rfl, hT, rfl, h.1, h.2.1⟩

/-- Counterexample to C12 as stated: instant mining on, mining input held, the ray cast hits
block 7, but `lastBlock` is null: no entry into `destroyBlock` is recorded in that frame and
block 7 is still active after it. -/
theorem update_instant_mining_counterexample :
    sampleInstant.instantMining = true ∧ sampleInstant.isMining = true
      ∧ (castRayForBlock sampleMath sampleConstants (-(1 / 5)) sampleInstant).1 = some 7
      ∧ (callsSince sampleInstant
          (update sampleMath sampleConstants (1 / 60) sampleInstant)).filter isDestroy = []
      ∧ ((update sampleMath sampleConstants (1 / 60) sampleInstant).game.blocks 7).active
          = true := by
  have hT : (castRayForBlock sampleMath sampleConstants (-(1 / 5)) sampleInstant).1
      = some 7 := sample_castRay_mine
  have hOther : (castRayForBlock sampleMath sampleConstants (-(1 / 5)) sampleInstant).1 = none
      ∨ (castRayForBlock sampleMath sampleConstants (-(1 / 5)) sampleInstant).1
          ≠ sampleInstant.lastBlock := by
    right; rw [hT]; simp [sampleInstant, sampleController]
  obtain ⟨-, -, l, k3, k4⟩ := update_other_target sampleMath sampleConstants (1 / 60)
    sampleInstant rfl hOther
  obtain ⟨h1, -, -, h4, h5, -⟩ := preMine_fields sampleMath sampleConstants (1 / 60) sampleInstant
  have hr := castRayForBlock_update sampleMath sampleConstants (-(1 / 5)) (1 / 60) sampleInstant
  have hgame := mineStep_other_target_game sampleMath sampleConstants (1 / 60)
    (cameraStep sampleMath sampleConstants (moveStep sampleMath sampleConstants (1 / 60)
      sampleInstant)) (h1.trans rfl) (by rw [hr, h4]; exact hOther)
  refine ⟨rfl, rfl, hT, ?_, ?_⟩
  · rw [callsSince, k3, List.drop_left, List.filter_eq_nil_iff]
    intro e he
    simp [(k4 e he).1]
  · have : (update sampleMath sampleConstants (1 / 60) sampleInstant).game
        = sampleInstant.game := by
      unfold update; rw [hgame, h5]
    rw [this]
    simp [sampleInstant, sampleController, sampleGame]

/-! ## Cycling the selected block -/

/-- The release of the E key changes the selected block only. -/
theorem onKey_E (K : Constants) (event : SDL_Event) (s : FirstPersonController)
    (hType : event.type = EventType.SDL_KEYUP) (hSym : event.sym = Keycode.SDLK_e) :
    onKey K event s =
      { s with blockSelected :=
          if s.blockSelected + 1 = K.LENGTH then K.Stone else s.blockSelected + 1 } := by
  unfold onKey
  by_cases h : s.blockSelected + 1 = K.LENGTH <;> simp [hType, hSym, h]

/-- The release of the Q key changes the selected block only. -/
theorem onKey_Q (K : Constants) (event : SDL_Event) (s : FirstPersonController)
    (hType : event.type = EventType.SDL_KEYUP) (hSym : event.sym = Keycode.SDLK_q) :
    onKey K event s =
      { s with blockSelected :=
          if s.blockSelected = K.Stone then K.LENGTH - 1 else s.blockSelected - 1 } := by
  unfold onKey
  by_cases h : s.blockSelected = K.Stone <;> simp [hType, hSym, h]

/-- Increment and decrement with wrap-around on the integers from `lo` up to, not including,
`hi`. -/
theorem cycle_int (a lo hi : ℤ) (hLow : lo ≤ a) (hHigh : a < hi) :
    (a + 1 < hi → (if a + 1 = hi then lo else a + 1) = a + 1)
      ∧ (a + 1 = hi → (if a + 1 = hi then lo else a + 1) = lo)
      ∧ (lo < a → (if a = lo then hi - 1 else a - 1) = a - 1)
      ∧ (a = lo → (if a = lo then hi - 1 else a - 1) = hi - 1)
      ∧ (if a + 1 = hi then lo else a + 1) = lo + (a - lo + 1) % (hi - lo)
      ∧ (if a = lo then hi - 1 else a - 1) = lo + (a - lo - 1) % (hi - lo)
      ∧ (lo ≤ (if a + 1 = hi then lo else a + 1) ∧ (if a + 1 = hi then lo else a + 1) < hi)
      ∧ (lo ≤ (if a = lo then hi - 1 else a - 1) ∧ (if a = lo then hi - 1 else a - 1) < hi)
      ∧ (if (if a + 1 = hi then lo else a + 1) = lo then hi - 1
          else (if a + 1 = hi then lo else a + 1) - 1) = a
      ∧ (if (if a = lo then hi - 1 else a - 1) + 1 = hi then lo
          else (if a = lo then hi - 1 else a - 1) + 1) = a := by
  refine ⟨?_, ?_, ?_, ?_, ?_, ?_, ?_, ?_, ?_, ?_⟩
  · intro h; rw [if_neg (by omega)]
  · intro h; rw [if_pos h]
  · intro h; rw [if_neg (by omega)]
  · intro h; rw [if_pos h]
  · split_ifs with h
    · have : a - lo + 1 = hi - lo := by omega
      rw [this, Int.emod_self]; omega
    · rw [Int.emod_eq_of_lt (by omega) (by omega)]; omega
  · split_ifs with h
    · have : (a - lo - 1) % (hi - lo) = (a - lo - 1 + (hi - lo)) % (hi - lo) := by
        rw [Int.add_emod_self]
      rw [this, Int.emod_eq_of_lt (by omega) (by omega)]; omega
    · rw [Int.emod_eq_of_lt (by omega) (by omega)]; omega
  · split_ifs <;> omega
  · split_ifs <;> omega
  · split_ifs <;> omega
  · split_ifs <;> omega

/-- C13. For every selected type in the range from `Stone` up to, not including, `LENGTH`: the
release of E selects the next type and wraps the last type to `Stone`; the release of Q selects
the previous type and wraps `Stone` to the last type; both are the increment and the decrement
modulo the number of types, counted from `Stone`; the result is in the range again (never
`LENGTH`); Q undoes E and E undoes Q; and nothing but the selected type is changed. -/
theorem onKey_block_cycling (K : Constants) (eventE eventQ : SDL_Event)
    (s : FirstPersonController)
    (hTypeE : eventE.type = EventType.SDL_KEYUP) (hSymE : eventE.sym = Keycode.SDLK_e)
    (hTypeQ : eventQ.type = EventType.SDL_KEYUP) (hSymQ : eventQ.sym = Keycode.SDLK_q)
    (hLow : K.Stone ≤ s.blockSelected) (hHigh : s.blockSelected < K.LENGTH) :
    (s.blockSelected + 1 < K.LENGTH → (onKey K eventE s).blockSelected = s.blockSelected + 1)
      ∧ (s.blockSelected + 1 = K.LENGTH → (onKey K eventE s).blockSelected = K.Stone)
      ∧ (K.Stone < s.blockSelected → (onKey K eventQ s).blockSelected = s.blockSelected - 1)
      ∧ (s.blockSelected = K.Stone → (onKey K eventQ s).blockSelected = K.LENGTH - 1)
      ∧ (onKey K eventE s).blockSelected
          = K.Stone + (s.blockSelected - K.Stone + 1) % (K.LENGTH - K.Stone)
      ∧ (onKey K eventQ s).blockSelected
          = K.Stone + (s.blockSelected - K.Stone - 1) % (K.LENGTH - K.Stone)
      ∧ (K.Stone ≤ (onKey K eventE s).blockSelected ∧ (onKey K eventE s).blockSelected < K.LENGTH)
      ∧ (K.Stone ≤ (onKey K eventQ s).blockSelected ∧ (onKey K eventQ s).blockSelected < K.LENGTH)
      ∧ (onKey K eventQ (onKey K eventE s)).blockSelected = s.blockSelected
      ∧ (onKey K eventE (onKey K eventQ s)).blockSelected = s.blockSelected
      ∧ onKey K eventE s = { s with blockSelected := (onKey K eventE s).blockSelected }
      ∧ onKey K eventQ s = { s with blockSelected := (onKey K eventQ s).blockSelected } := by
  have hE := fun t => onKey_E K eventE t hTypeE hSymE
  have hQ := fun t => onKey_Q K eventQ t hTypeQ hSymQ
  obtain ⟨c1, c2, c3, c4, c5, c6, c7, c8, c9, c10⟩ :=
    cycle_int s.blockSelected K.Stone K.LENGTH hLow hHigh
  refine ⟨?_, ?_, ?_, ?_, ?_, ?_, ?_, ?_, ?_, ?_, ?_, ?_⟩
  · rw [hE]; exact c1
  · rw [hE]; exact c2
  · rw [hQ]; exact c3
  · rw [hQ]; exact c4
  · rw [hE]; exact c5
  · rw [hQ]; exact c6
  · rw [hE]; exact c7
  · rw [hQ]; exact c8
  · rw [hQ, hE]; exact c9
  · rw [hE, hQ]; exact c10
  · rw [hE]
  · rw [hQ]

/-- Witness of C13: with ten block types numbered from 0 and the last one selected, E wraps to
`Stone` and Q after E gives the last one back. -/
theorem onKey_block_cycling_witness :
    sampleConstants.Stone ≤ sampleLastSelected.blockSelected
      ∧ sampleLastSelected.blockSelected < sampleConstants.LENGTH
      ∧ (onKey sampleConstants (keyUp Keycode.SDLK_e) sampleLastSelected).blockSelected = 0
      ∧ (onKey sampleConstants (keyUp Keycode.SDLK_q) sampleLastSelected).blockSelected = 8
      ∧ (onKey sampleConstants (keyUp Keycode.SDLK_q)
          (onKey sampleConstants (keyUp Keycode.SDLK_e) sampleLastSelected)).blockSelected = 9 := by
  have hLow : sampleConstants.Stone ≤ sampleLastSelected.blockSelected := by
    norm_num [sampleConstants, sampleLastSelected]
  have hHigh : sampleLastSelected.blockSelected < sampleConstants.LENGTH := by
    norm_num [sampleConstants, sampleLastSelected]
  have h := onKey_block_cycling sampleConstants (keyUp Keycode.SDLK_e) (keyUp Keycode.SDLK_q)
    sampleLastSelected rfl rfl rfl rfl hLow hHigh
  refine ⟨hLow, hHigh, ?_, ?_, ?_⟩
  · exact h.2.1 (by norm_num [sampleConstants, sampleLastSelected])
  · rw [h.2.2.1 (by norm_num [sampleConstants, sampleLastSelected])]
    norm_num [sampleLastSelected]
  · exact h.2.2.2.2.2.2.2.2.1

/-! ## Elapsed time and velocity -/

/-- The velocity written by the movement branch is proportional to the elapsed time in its
horizontal components, and in fly mode in its vertical component too. -/
theorem handleMovement_scales (M : MathFns) (K : Constants) (deltaTime : ℚ)
    (s : FirstPersonController) :
    (handleMovement M K deltaTime s).rigidBody.linearVelocity.x
        = deltaTime * (handleMovement M K 1 s).rigidBody.linearVelocity.x
      ∧ (handleMovement M K deltaTime s).rigidBody.linearVelocity.z
        = deltaTime * (handleMovement M K 1 s).rigidBody.linearVelocity.z
      ∧ (s.flyMode = true →
          (handleMovement M K deltaTime s).rigidBody.linearVelocity.y
            = deltaTime * (handleMovement M K 1 s).rigidBody.linearVelocity.y)
      ∧ (s.flyMode = false →
          (handleMovement M K deltaTime s).rigidBody.linearVelocity.y
            = s.rigidBody.linearVelocity.y) := by
  unfold handleMovement
  by_cases h : keyMovement s = ⟨0, 0, 0⟩
  · simp only [h, ne_eq, not_true_eq_false, if_false, setLinearVelocity, record]
    cases s.isSprinting <;> cases s.isGrounded <;> cases s.flyMode <;> cases s.up <;>
      cases s.down <;> simp [Vec3.scale, Vec3.add]
  · simp only [h, ne_eq, not_false_eq_true, if_true, setLinearVelocity, record]
    refine ⟨?_, ?_, ?_, ?_⟩
    · cases s.isSprinting <;> cases s.isGrounded <;> cases s.flyMode <;> cases s.up <;>
        cases s.down <;> simp only [Vec3.scale, Vec3.add, Bool.false_eq_true, if_false, if_true,
          Bool.not_false, Bool.not_true] <;> ring
    · cases s.isSprinting <;> cases s.isGrounded <;> cases s.flyMode <;> cases s.up <;>
        cases s.down <;> simp only [Vec3.scale, Vec3.add, Bool.false_eq_true, if_false, if_true,
          Bool.not_false, Bool.not_true] <;> ring
    · intro hf
      rw [hf]
      cases s.isSprinting <;> cases s.isGrounded <;> cases s.up <;>
        cases s.down <;> simp only [Vec3.scale, Vec3.add, Bool.false_eq_true, if_false, if_true,
          Bool.not_false, Bool.not_true] <;> ring
    · intro hf
      rw [hf]
      simp

/-- The calls of the movement branch end with the write of the velocity the body then has. -/
theorem handleMovement_calls (M : MathFns) (K : Constants) (deltaTime : ℚ)
    (s : FirstPersonController) :
    ∃ l, (handleMovement M K deltaTime s).calls
        = s.calls ++ (l ++ [Call.setLinearVelocity
            (handleMovement M K deltaTime s).rigidBody.linearVelocity])
      ∧ ∀ c ∈ l, ∃ v, c = Call.normalize v := by
  unfold handleMovement
  by_cases h : keyMovement s = ⟨0, 0, 0⟩
  · simp only [h, ne_eq, not_true_eq_false, if_false, setLinearVelocity, record]
    exact ⟨[], by simp, by simp⟩
  · simp only [h, ne_eq, not_false_eq_true, if_true, setLinearVelocity, record]
    exact ⟨[Call.normalize (keyMovement s)], by simp, by simp⟩

/-- C14, as amended. For every controller state, every combination of movement flags and
every elapsed time, when movement is handled (the body is grounded, or `NEEDS_GROUNDED_TO_MOVE`
is off) the velocity `update` writes to the rigid body is proportional to the elapsed time: its
horizontal components, and in fly mode its vertical component, are the elapsed time times those
of the velocity written for elapsed time 1. So they are zero for elapsed time zero, and for a
negative elapsed time they are those for the positive time with the sign reversed. When movement
is not handled, `update` writes no velocity. -/
theorem update_velocity_scales (M : MathFns) (K : Constants) (deltaTime : ℚ)
    (s : FirstPersonController) :
    ((s.isGrounded = true ∨ K.NEEDS_GROUNDED_TO_MOVE = false) →
        Call.setLinearVelocity (update M K deltaTime s).rigidBody.linearVelocity
            ∈ callsSince s (update M K deltaTime s)
          ∧ (∀ v, Call.setLinearVelocity v ∈ callsSince s (update M K deltaTime s) →
              v = (update M K deltaTime s).rigidBody.linearVelocity)
          ∧ (update M K deltaTime s).rigidBody.linearVelocity.x
              = deltaTime * (update M K 1 s).rigidBody.linearVelocity.x
          ∧ (update M K deltaTime s).rigidBody.linearVelocity.z
              = deltaTime * (update M K 1 s).rigidBody.linearVelocity.z
          ∧ (s.flyMode = true →
              (update M K deltaTime s).rigidBody.linearVelocity.y
                = deltaTime * (update M K 1 s).rigidBody.linearVelocity.y)
          ∧ (deltaTime = 0 →
              (update M K deltaTime s).rigidBody.linearVelocity.x = 0
                ∧ (update M K deltaTime s).rigidBody.linearVelocity.z = 0
                ∧ (s.flyMode = true → (update M K deltaTime s).rigidBody.linearVelocity.y = 0))
          ∧ (update M K (-deltaTime) s).rigidBody.linearVelocity.x
              = -(update M K deltaTime s).rigidBody.linearVelocity.x
          ∧ (update M K (-deltaTime) s).rigidBody.linearVelocity.z
              = -(update M K deltaTime s).rigidBody.linearVelocity.z)
      ∧ ((s.isGrounded = false ∧ K.NEEDS_GROUNDED_TO_MOVE = true) →
          ∀ v, Call.setLinearVelocity v ∉ callsSince s (update M K deltaTime s)) := by
  have hb : ∀ t, (update M K t s).rigidBody = (moveStep M K t s).rigidBody :=
    fun t => (update_after_moveStep M K t s).1
  obtain ⟨-, l, hc, hl⟩ := update_after_moveStep M K deltaTime s
  have hnl : ∀ c ∈ l, ∀ v, c ≠ Call.setLinearVelocity v := by
    intro c hcl v
    have := hl c hcl
    rintro rfl
    simp [isMove] at this
  constructor
  · intro hg
    have hgate : (s.isGrounded || !K.NEEDS_GROUNDED_TO_MOVE) = true := by
      rcases hg with h | h <;> simp [h]
    have hm : ∀ t, moveStep M K t s = handleMovement M K t s := by
      intro t; unfold moveStep; rw [if_pos hgate]
    obtain ⟨lm, k1, k2⟩ := handleMovement_calls M K deltaTime s
    have hcs : callsSince s (handleMovement M K deltaTime s)
        = lm ++ [Call.setLinearVelocity (handleMovement M K deltaTime s).rigidBody.linearVelocity] := by
      rw [callsSince, k1, List.drop_left]
    obtain ⟨sx, sz, sy, -⟩ := handleMovement_scales M K deltaTime s
    obtain ⟨nx, nz, -, -⟩ := handleMovement_scales M K (-deltaTime) s
    simp only [hb, hm, hc, hcs]
    refine ⟨by simp, ?_, sx, sz, sy, ?_, ?_, ?_⟩
    · intro v hv
      rcases List.mem_append.mp hv with h | h
      · rcases List.mem_append.mp h with h | h
        · obtain ⟨w, hw⟩ := k2 _ h
          cases hw
        · simpa using h
      · exact absurd rfl (hnl _ h v)
    · intro h0
      subst h0
      exact ⟨by rw [sx]; ring, by rw [sz]; ring, fun hf => by rw [sy hf]; ring⟩
    · rw [nx, sx]; ring
    · rw [nz, sz]; ring
  · rintro ⟨h1, h2⟩ v hv
    have hgate : ¬ (s.isGrounded || !K.NEEDS_GROUNDED_TO_MOVE) = true := by simp [h1, h2]
    have hm : moveStep M K deltaTime s = s := by unfold moveStep; rw [if_neg hgate]
    rw [hc, hm, callsSince, List.drop_length, List.nil_append] at hv
    exact absurd rfl (hnl _ hv v)

/-- Witness of C14: the forward key held on the sample controller, which is grounded; with
elapsed time zero the velocity written is zero in `x` and `z`. -/
theorem update_velocity_scales_witness :
    sampleForward.isGrounded = true
      ∧ Call.setLinearVelocity
          (update sampleMath sampleConstants 0 sampleForward).rigidBody.linearVelocity
          ∈ callsSince sampleForward (update sampleMath sampleConstants 0 sampleForward)
      ∧ (update sampleMath sampleConstants 0 sampleForward).rigidBody.linearVelocity.x = 0
      ∧ (update sampleMath sampleConstants 0 sampleForward).rigidBody.linearVelocity.z = 0 := by
  have h := (update_velocity_scales sampleMath sampleConstants 0 sampleForward).1 (Or.inl rfl)
  exact ⟨rfl, h.1, (h.2.2.2.2.2.1 rfl).1, (h.2.2.2.2.2.1 rfl).2.1⟩

/-- Counterexample to C14 as stated: the forward key held on the sample controller (grounded,
yaw 0, not flying) and elapsed time -1: the velocity `update` writes is `(0, 0, 200)`, whose
horizontal component `z` is not zero. -/
theorem update_negative_time_counterexample :
    (-1 : ℚ) ≤ 0
      ∧ (update sampleMath sampleConstants (-1) sampleForward).rigidBody.linearVelocity
          = ⟨0, 0, 200⟩
      ∧ (update sampleMath sampleConstants (-1) sampleForward).rigidBody.linearVelocity.z ≠ 0 := by
  have h : (update sampleMath sampleConstants (-1) sampleForward).rigidBody.linearVelocity
      = ⟨0, 0, 200⟩ := by
    rw [(update_after_moveStep sampleMath sampleConstants (-1) sampleForward).1]
    norm_num [moveStep, handleMovement, keyMovement, sampleForward, sampleController,
      sampleConstants, sampleMath, setLinearVelocity, record, normalize, Vec3.add, Vec3.scale,
      Vec3.dot]
  refine ⟨by norm_num, h, ?_⟩
  rw [h]
  norm_num

/-! ## Truncation -/

end FirstPersonController

/-- On values that are not negative the cast to `int` is the floor. -/
theorem toInt_of_nonneg (q : ℚ) (h : 0 ≤ q) : toInt q = ⌊q⌋ := by
  unfold toInt
  rw [if_pos h]

/-- On negative values the cast to `int` is the ceiling. -/
theorem toInt_of_neg (q : ℚ) (h : q < 0) : toInt q = ⌈q⌉ := by
  unfold toInt
  rw [if_neg (not_le.mpr h)]

/-- Above -1 the cast to `int` is not negative. -/
theorem toInt_nonneg (q : ℚ) (h : -1 < q) : 0 ≤ toInt q := by
  by_cases h0 : 0 ≤ q
  · rw [toInt_of_nonneg q h0]
    exact Int.floor_nonneg.mpr h0
  · rw [toInt_of_neg q (not_le.mp h0)]
    have : (-1 : ℤ) < ⌈q⌉ := Int.lt_ceil.mpr (by exact_mod_cast h)
    omega

/-- A component of a vector of length one lies between -1 and 1. -/
theorem unit_y_bounds (n : Vec3) (h : n.dot n = 1) : -1 ≤ n.y ∧ n.y ≤ 1 := by
  unfold Vec3.dot at h
  have hx := mul_self_nonneg n.x
  have hz := mul_self_nonneg n.z
  constructor <;> nlinarith

namespace FirstPersonController

/-- C15. For every hit point, however negative its `y`, every hit normal of length one and both
normal offsets the controller uses (`-0.2` for mining and replacing, `0.2` for placing), the `y`
coordinate computed from the hit is at least 0, and so is the `y` of every call of
`locationToBlock` that `castRayForBlock` records. -/
theorem castRayForBlock_y_nonneg (M : MathFns) (K : Constants) (normalMultiplier : ℚ)
    (s : FirstPersonController)
    (hOffset : normalMultiplier = -(1 / 5) ∨ normalMultiplier = 1 / 5) :
    (∀ res : RayResult, res.m_hitNormalWorld.dot res.m_hitNormalWorld = 1 →
        0 ≤ (hitToCell res normalMultiplier).2.1)
      ∧ ((∀ res, s.game.raycast (rayStart K s) (rayEnd M K s) = some res →
            res.m_hitNormalWorld.dot res.m_hitNormalWorld = 1) →
          ∀ x y z c, Call.locationToBlock x y z c
              ∈ callsSince s (castRayForBlock M K normalMultiplier s).2 → 0 ≤ y) := by
  have hcell : ∀ res : RayResult, res.m_hitNormalWorld.dot res.m_hitNormalWorld = 1 →
      0 ≤ (hitToCell res normalMultiplier).2.1 := by
    intro res hUnit
    obtain ⟨h1, h2⟩ := unit_y_bounds _ hUnit
    unfold hitToCell
    dsimp only [Vec3.add, Vec3.scale]
    apply toInt_nonneg
    split_ifs with hy
    · dsimp only
      rcases hOffset with h | h <;> rw [h] <;> linarith
    · have hy' := not_lt.mp hy
      rcases hOffset with h | h <;> rw [h] <;> linarith
  refine ⟨hcell, ?_⟩
  intro hUnit x y z c hmem
  unfold castRayForBlock at hmem
  cases hr : s.game.raycast (rayStart K s) (rayEnd M K s) with
  | none =>
    simp only [hr, callsSince, List.drop_length, List.not_mem_nil] at hmem
  | some res =>
    simp only [hr, locationToBlock, record, callsSince, List.drop_left, List.mem_singleton,
      Call.locationToBlock.injEq] at hmem
    rw [hmem.2.1]
    exact hcell res (hUnit res hr)

/-- Witness of C15: a hit on bedrock at `y = -1000` with the normal pointing up and the mining
offset; the cell is `(0,0,0)`. -/
theorem castRayForBlock_y_nonneg_witness :
    (∀ res, sampleBedrock.game.raycast (rayStart sampleConstants sampleBedrock)
        (rayEnd sampleMath sampleConstants sampleBedrock) = some res →
          res.m_hitNormalWorld.dot res.m_hitNormalWorld = 1)
      ∧ hitToCell ⟨⟨0, -1000, 0⟩, ⟨0, 1, 0⟩⟩ (-(1 / 5)) = (0, 0, 0)
      ∧ ∀ x y z c, Call.locationToBlock x y z c
          ∈ callsSince sampleBedrock
              (castRayForBlock sampleMath sampleConstants (-(1 / 5)) sampleBedrock).2 → 0 ≤ y := by
  have hUnit : ∀ res, sampleBedrock.game.raycast (rayStart sampleConstants sampleBedrock)
      (rayEnd sampleMath sampleConstants sampleBedrock) = some res →
        res.m_hitNormalWorld.dot res.m_hitNormalWorld = 1 := by
    intro res h
    have : res = ⟨⟨0, -1000, 0⟩, ⟨0, 1, 0⟩⟩ := by
      simpa [sampleBedrock] using h.symm
    rw [this]
    norm_num [Vec3.dot]
  refine ⟨hUnit, ?_, ?_⟩
  · norm_num [hitToCell, toInt, Vec3.add, Vec3.scale]
  · exact (castRayForBlock_y_nonneg sampleMath sampleConstants (-(1 / 5)) sampleBedrock
      (Or.inl rfl)).2 hUnit

/-- C16, the code at a failing input. A ray hits the face of the block at `(0,7,0)` that looks
toward negative `x`, at `(-0.5, 7, 0)` with normal `(-1,0,0)`, and the placing offset `0.2` is
used: the biased point has `x = -0.199`, whose floor is -1, but the cast to `int` gives 0, the
same cell as for a hit on the top face at `(-0.201, 7.5, 0)` with the mining offset, whose biased
`x = 0.3` lies in the unit cell from 0 to 1. The cast is the floor only where the component is
not negative; on negative components it is the ceiling. -/
theorem hitToCell_truncates_toward_zero :
    hitToCell ⟨⟨-(1 / 2), 7, 0⟩, ⟨-1, 0, 0⟩⟩ (1 / 5) = (0, 7, 0)
      ∧ (⌊(-(1 / 2) : ℚ) + 501 / 1000 + -1 * (1 / 5)⌋ : ℤ) = -1
      ∧ hitToCell ⟨⟨-(201 / 1000), 15 / 2, 0⟩, ⟨0, 1, 0⟩⟩ (-(1 / 5)) = (0, 7, 0)
      ∧ (∀ q : ℚ, 0 ≤ q → toInt q = ⌊q⌋)
      ∧ (∀ q : ℚ, q < 0 → toInt q = ⌈q⌉) := by
  refine ⟨?_, ?_, ?_, toInt_of_nonneg, toInt_of_neg⟩
  · norm_num [hitToCell, toInt, Vec3.add, Vec3.scale]
  · norm_num
  · norm_num [hitToCell, toInt, Vec3.add, Vec3.scale]

/-! ## Mining progress -/

/-- Key events touch neither the mined amount nor the mining flag. -/
theorem onKey_mining (K : Constants) (event : SDL_Event) (s : FirstPersonController) :
    (onKey K event s).minedAmount = s.minedAmount ∧ (onKey K event s).isMining = s.isMining := by
  obtain ⟨ty, sym, xrel, yrel, button⟩ := event
  unfold onKey
  cases ty <;> cases sym <;>
    simp [translateController, setCollisionFlags, setGravity, setLinearVelocity, record,
      setPerspectiveProjection] <;>
    split_ifs <;> simp

/-- Placing a block touches neither the mined amount nor the mining flag. -/
theorem placeBlock_mining (M : MathFns) (K : Constants) (s : FirstPersonController) :
    (placeBlock M K s).minedAmount = s.minedAmount
      ∧ (placeBlock M K s).isMining = s.isMining := by
  obtain ⟨a, b', c, d, l, hs, -⟩ := castRayForBlock_snd M K
    (if s.replaceBlock = true then -(1 / 5) else 1 / 5) s
  unfold placeBlock
  generalize castRayForBlock M K (if s.replaceBlock = true then -(1 / 5) else 1 / 5) s = r at hs
  obtain ⟨r1, r2⟩ := r
  simp only at hs
  subst hs
  cases r1 with
  | none => exact ⟨rfl, rfl⟩
  | some p =>
    dsimp only
    split_ifs <;> exact ⟨rfl, rfl⟩

/-- What `onMouse` does to the mined amount and the mining flag. -/
theorem onMouse_mining (M : MathFns) (K : Constants) (event : SDL_Event)
    (s : FirstPersonController) :
    ((event.type = EventType.SDL_MOUSEBUTTONUP ∧ event.button = MouseButton.SDL_BUTTON_LEFT) →
        (onMouse M K event s).minedAmount = 0 ∧ (onMouse M K event s).isMining = false)
      ∧ ((event.type = EventType.SDL_MOUSEBUTTONDOWN
            ∧ event.button = MouseButton.SDL_BUTTON_LEFT) →
        (onMouse M K event s).minedAmount = s.minedAmount
          ∧ (onMouse M K event s).isMining = true)
      ∧ (¬ (event.type = EventType.SDL_MOUSEBUTTONUP
              ∧ event.button = MouseButton.SDL_BUTTON_LEFT) →
          ¬ (event.type = EventType.SDL_MOUSEBUTTONDOWN
              ∧ event.button = MouseButton.SDL_BUTTON_LEFT) →
        (onMouse M K event s).minedAmount = s.minedAmount
          ∧ (onMouse M K event s).isMining = s.isMining) := by
  obtain ⟨hp1, hp2⟩ := placeBlock_mining M K s
  obtain ⟨ty, sym, xrel, yrel, button⟩ := event
  unfold onMouse
  cases ty <;> cases button <;> simp [hp1, hp2] <;> split_ifs <;> simp

/-- What the mining step does to the mined amount, whatever branch it takes. -/
theorem mineStep_minedAmount (M : MathFns) (K : Constants) (deltaTime : ℚ)
    (u : FirstPersonController) :
    (u.isMining = false → (mineStep M K deltaTime u).minedAmount = u.minedAmount)
      ∧ (u.isMining = true →
          (mineStep M K deltaTime u).minedAmount = 0
            ∨ ((mineStep M K deltaTime u).minedAmount = M.roundFloat (u.minedAmount + deltaTime)
              ∧ M.roundFloat (u.minedAmount + deltaTime) < 1)) := by
  obtain ⟨a, b', c, d, l2, hs, -⟩ := castRayForBlock_snd M K (-(1 / 5)) u
  unfold mineStep
  generalize castRayForBlock M K (-(1 / 5)) u = r at hs
  obtain ⟨r1, r2⟩ := r
  simp only at hs
  subst hs
  constructor
  · intro hM
    simp [hM]
  · intro hM
    simp only [hM, if_true]
    by_cases hsame : r1 ≠ none ∧ r1 = u.lastBlock
    · rw [if_pos hsame]
      by_cases hfire : M.roundFloat (u.minedAmount + deltaTime) ≥ 1 ∨ u.instantMining = true
      · rw [if_pos hfire]
        cases hl : u.lastBlock with
        | none => exact absurd (hsame.2.trans hl) hsame.1
        | some p =>
          left
          simp only [destroyBlock_eq]
      · rw [if_neg hfire]
        right
        exact ⟨rfl, not_le.mp (fun h => hfire (Or.inl h))⟩
    · rw [if_neg hsame]
      left
      rfl

/-- The bounds on the mined amount, and its being zero while the button is not held. -/
theorem update_keeps_fraction (M : MathFns) (K : Constants) (deltaTime : ℚ)
    (s : FirstPersonController) (hTime : 0 ≤ deltaTime)
    (hInv : 0 ≤ s.minedAmount ∧ s.minedAmount < 1 ∧ (s.isMining = false → s.minedAmount = 0)) :
    0 ≤ (update M K deltaTime s).minedAmount ∧ (update M K deltaTime s).minedAmount < 1
      ∧ ((update M K deltaTime s).isMining = false → (update M K deltaTime s).minedAmount = 0) := by
  obtain ⟨h1, -, h3, -, -, -⟩ := preMine_fields M K deltaTime s
  obtain ⟨-, -, -, -, -, k6, -⟩ := update_keeps M K deltaTime s
  obtain ⟨g1, g2⟩ := mineStep_minedAmount M K deltaTime (cameraStep M K (moveStep M K deltaTime s))
  rw [h1, h3] at g1 g2
  obtain ⟨i1, i2, i3⟩ := hInv
  have hu : (update M K deltaTime s).minedAmount
      = (mineStep M K deltaTime (cameraStep M K (moveStep M K deltaTime s))).minedAmount := rfl
  rw [k6, hu]
  cases hM : s.isMining with
  | false =>
    rw [g1 hM, i3 hM]
    exact ⟨le_refl _, by norm_num, fun _ => rfl⟩
  | true =>
    rcases g2 hM with h | ⟨h, hlt⟩
    · rw [h]
      exact ⟨le_refl _, by norm_num, fun _ => rfl⟩
    · rw [h]
      exact ⟨M.roundFloat_nonneg _ (by linarith), hlt, fun hf => by cases hf⟩

/-- C17. Starting from a mined amount of zero, after any sequence of `update` calls with frame
times that are not negative, of mouse events and of key events, the value `getMinedAmount`
returns is at least 0 and below 1, and it is 0 whenever mining input is not held; a release of
the left button then leaves the mined amount at 0 with mining input not held. -/
theorem minedAmount_stays_fraction (M : MathFns) (K : Constants) (inputs : List Input)
    (s : FirstPersonController) (hZero : s.minedAmount = 0)
    (hTimes : ∀ f, Input.update f ∈ inputs → 0 ≤ f.deltaTime) :
    0 ≤ getMinedAmount (run M K inputs s)
      ∧ getMinedAmount (run M K inputs s) < 1
      ∧ ((run M K inputs s).isMining = false → getMinedAmount (run M K inputs s) = 0)
      ∧ ∀ event : SDL_Event, event.type = EventType.SDL_MOUSEBUTTONUP →
          event.button = MouseButton.SDL_BUTTON_LEFT →
          getMinedAmount (onMouse M K event (run M K inputs s)) = 0
            ∧ (onMouse M K event (run M K inputs s)).isMining = false := by
  have key : ∀ (inputs : List Input) (s : FirstPersonController),
      (∀ f, Input.update f ∈ inputs → 0 ≤ f.deltaTime) →
      (0 ≤ s.minedAmount ∧ s.minedAmount < 1 ∧ (s.isMining = false → s.minedAmount = 0)) →
      0 ≤ (run M K inputs s).minedAmount ∧ (run M K inputs s).minedAmount < 1
        ∧ ((run M K inputs s).isMining = false → (run M K inputs s).minedAmount = 0) := by
    intro inputs
    induction inputs with
    | nil => intro s _ h; exact h
    | cons i rest ih =>
      intro s hT hInv
      apply ih (step M K i s) (fun f hf => hT f (List.mem_cons_of_mem _ hf))
      cases i with
      | update f =>
        exact update_keeps_fraction M K f.deltaTime (enterFrame f s)
          (hT f (List.mem_cons_self _ _)) hInv
      | onKey event =>
        obtain ⟨h1, h2⟩ := onKey_mining K event s
        show 0 ≤ (onKey K event s).minedAmount ∧ (onKey K event s).minedAmount < 1
          ∧ ((onKey K event s).isMining = false → (onKey K event s).minedAmount = 0)
        rw [h1, h2]
        exact hInv
      | onMouse event =>
        obtain ⟨m1, m2, m3⟩ := onMouse_mining M K event s
        obtain ⟨i1, i2, i3⟩ := hInv
        show 0 ≤ (onMouse M K event s).minedAmount ∧ (onMouse M K event s).minedAmount < 1
          ∧ ((onMouse M K event s).isMining = false → (onMouse M K event s).minedAmount = 0)
        by_cases hUp : event.type = EventType.SDL_MOUSEBUTTONUP
            ∧ event.button = MouseButton.SDL_BUTTON_LEFT
        · rw [(m1 hUp).1]
          exact ⟨le_refl _, by norm_num, fun _ => rfl⟩
        · by_cases hDown : event.type = EventType.SDL_MOUSEBUTTONDOWN
              ∧ event.button = MouseButton.SDL_BUTTON_LEFT
          · rw [(m2 hDown).1, (m2 hDown).2]
            exact ⟨i1, i2, fun hf => by cases hf⟩
          · rw [(m3 hUp hDown).1, (m3 hUp hDown).2]
            exact ⟨i1, i2, i3⟩
  obtain ⟨k1, k2, k3⟩ := key inputs s hTimes
    ⟨by rw [hZero], by rw [hZero]; norm_num, fun _ => hZero⟩
  refine ⟨k1, k2, k3, ?_⟩
  intro event hType hButton
  exact (onMouse_mining M K event (run M K inputs s)).1 ⟨hType, hButton⟩

/-- Witness of C17: the sample session run from the idle sample controller. -/
theorem minedAmount_stays_fraction_witness :
    sampleIdle.minedAmount = 0
      ∧ (∀ f, Input.update f ∈ sampleSession → 0 ≤ f.deltaTime)
      ∧ 0 ≤ getMinedAmount (run sampleMath sampleConstants sampleSession sampleIdle)
      ∧ getMinedAmount (run sampleMath sampleConstants sampleSession sampleIdle) < 1 := by
  have hT : ∀ f, Input.update f ∈ sampleSession → 0 ≤ f.deltaTime := by
    intro f hf
    simp only [sampleSession, List.mem_cons, Input.update.injEq, List.mem_singleton,
      List.not_mem_nil, or_false, false_or, reduceCtorEq] at hf
    rcases hf with h | h | h <;> rw [h] <;> norm_num [sampleFrame]
  have h := minedAmount_stays_fraction sampleMath sampleConstants sampleSession sampleIdle rfl hT
  exact ⟨rfl, hT, h.1, h.2.1⟩

end FirstPersonController

end VoxelGame
